import Mathlib

/-!
# Answerphone-detection pipeline: a shallow embedding

This file embeds the JavaScript source of the answerphone-detection
repository in Lean 4 and settles a list of claims about it.

Embedding conventions:
* JS strings are Lean `String`s (`Char` lists under the hood); the
  ASCII fragment of `toLowerCase`, `trim`, `split`, `replace` is
  modelled directly.
* JS numbers appearing as byte counts are `Nat`; ledger fields parsed
  with `parseInt` are `Int` (JS `parseInt` accepts a sign); the one
  place where arbitrary JS numbers flow in (`generateHeader`) uses an
  explicit `JSNum` type with rationals for finite doubles.
* Buffers are `List Nat` of byte values.
* Filesystem and network effects are oracles collected in an `FsEnv`
  record; the shared mutable `PATHS` configuration is explicit state
  threaded through the batch functions.
* Fallible code returns `Except String` carrying the thrown `Error`
  message, mirroring the JS `throw new Error(...)` sites.
-/

namespace APD

/-- Decidable equality for `Except`, so concrete runs of the fallible
functions can be checked by `decide`. -/
instance {ε α : Type} [DecidableEq ε] [DecidableEq α] : DecidableEq (Except ε α)
  | .error e, .error f =>
    if h : e = f then .isTrue (h ▸ rfl)
    else .isFalse (fun hh => h (by cases hh; rfl))
  | .error _, .ok _ => .isFalse (fun hh => Except.noConfusion hh)
  | .ok _, .error _ => .isFalse (fun hh => Except.noConfusion hh)
  | .ok a, .ok b =>
    if h : a = b then .isTrue (h ▸ rfl)
    else .isFalse (fun hh => h (by cases hh; rfl))

/-! ## Small JS-semantics helpers

String primitives are re-implemented structurally over `List Char` (rather
than through `String.splitOn`/`String.trim`) so that every definition
reduces inside the kernel and claims can be checked on concrete inputs. -/

/-- JS `str.split(sep)` for a one-character separator (the source only ever
splits on `','` and `'/'`). `"".split(sep)` is `[""]`. -/
def splitOnChar (sep : Char) : List Char → List (List Char)
  | [] => [[]]
  | c :: rest =>
    if c = sep then [] :: splitOnChar sep rest
    else
      match splitOnChar sep rest with
      | [] => [[c]]
      | h :: t => (c :: h) :: t

/-- JS `String.prototype.trim` (whitespace at both ends). -/
def trimChars (cs : List Char) : List Char :=
  ((cs.dropWhile Char.isWhitespace).reverse.dropWhile Char.isWhitespace).reverse

/-- Value of the longest leading run of decimal digits; `none` when there is
no leading digit (the `NaN` case of `parseInt`). -/
def digitsVal (cs : List Char) : Option Nat :=
  match cs.takeWhile Char.isDigit with
  | [] => none
  | ds => some (ds.foldl (fun a c => a * 10 + (c.toNat - 48)) 0)

/-- JS `parseInt(s, 10)`: skip leading whitespace, optional sign, then the
longest digit run; `none` models `NaN`. Trailing garbage is ignored. -/
def jsParseIntChars (s : List Char) : Option Int :=
  match s.dropWhile Char.isWhitespace with
  | '-' :: rest => (digitsVal rest).map (fun v => -(v : Int))
  | '+' :: rest => (digitsVal rest).map (fun v => (v : Int))
  | cs => (digitsVal cs).map (fun v => (v : Int))

/-- String wrapper for `jsParseIntChars`. -/
def jsParseInt (s : String) : Option Int := jsParseIntChars s.data

/-- ASCII model of one character of `String.prototype.toLowerCase`. -/
def jsToLower (c : Char) : Char :=
  if 65 ≤ c.toNat ∧ c.toNat ≤ 90 then Char.ofNat (c.toNat + 32) else c

/-- ASCII model of `String.prototype.toLowerCase`. -/
def jsLower (s : String) : String :=
  ⟨s.data.map jsToLower⟩

/-- True when `pat` occurs as a contiguous substring of `hay` (JS `String.includes`). -/
def containsSub (hay pat : List Char) : Bool :=
  hay.tails.any (fun t => pat.isPrefixOf t)

/-- JS `String.prototype.replace` with a string pattern: replaces only the
first occurrence; returns the input unchanged when the pattern is absent. -/
def replaceFirst (s pat repl : List Char) : List Char :=
  match s with
  | [] => []
  | c :: rest =>
    if pat.isPrefixOf (c :: rest) then repl ++ (c :: rest).drop pat.length
    else c :: replaceFirst rest pat repl

/-- String wrapper for `replaceFirst`. -/
def replaceFirstStr (s pat repl : String) : String :=
  ⟨replaceFirst s.data pat.data repl.data⟩

/-- Node `path`-style join as used by the source (`join(a, b)` and the
template literals both produce a `/`-separated path; normalisation of
`./`-segments is irrelevant to the claims and not modelled). -/
def pathJoin (a b : String) : String := a ++ "/" ++ b

/-- Node `basename`: the last `/`-separated component. -/
def pathBasename (p : String) : String :=
  ⟨(splitOnChar '/' p.data).getLastD p.data⟩

/-- Two-digit zero-padding for the decimal fraction of `toFixed(2)`. -/
def pad2 (n : Nat) : String :=
  if n < 10 then "0" ++ toString n else toString n

/-- Three-digit zero-padding for the decimal fraction of `toFixed(3)`. -/
def pad3 (n : Nat) : String :=
  if n < 100 then (if n < 10 then "00" else "0") ++ toString n else toString n

/-- Model of `((t1 - t0) / 1000).toFixed(2) + "s"`, the duration string the
source attaches to every per-item and batch result (`ms` in milliseconds,
rounded half-up to centiseconds). -/
def fmtSeconds (ms : Nat) : String :=
  let q := (ms + 5) / 10
  toString (q / 100) ++ "." ++ pad2 (q % 100) ++ "s"

/-- Model of `Number.prototype.toFixed(3)` on a rational: the rounded value
`⌊q * 1000 + 1/2⌋`, written on the numerator/denominator directly so that it
evaluates by integer arithmetic alone. -/
def toFixed3 (q : ℚ) : String :=
  let n : Int := Int.fdiv (q.num * 2000 + q.den) (2 * q.den)
  if n < 0 then
    "-" ++ toString ((-n).toNat / 1000) ++ "." ++ pad3 ((-n).toNat % 1000)
  else
    toString (n.toNat / 1000) ++ "." ++ pad3 (n.toNat % 1000)

/-! ## AudioConfig.js -/

def SAMPLE_RATE : Nat := 8000

def CHANNELS : Nat := 1

def BITS_PER_SAMPLE : Nat := 16

def BYTE_RATE : Nat := SAMPLE_RATE * CHANNELS * (BITS_PER_SAMPLE / 8)

def BLOCK_ALIGN : Nat := CHANNELS * (BITS_PER_SAMPLE / 8)

def MAX_FILE_SIZE : Nat := 50 * 1024 * 1024

def WAV_HEADER_SIZE : Nat := 44

/-- The shared mutable `PATHS` configuration object. -/
structure Paths where
  dataDir : String
  outputDir : String
deriving Repr, DecidableEq

/-- The `PATHS` literal from `AudioConfig.js`. -/
def defaultPaths : Paths := ⟨"./data", "./output"⟩

/-! ## WavHeaderGenerator.js -/

/-- A JS number as it can reach `generateHeader`: a finite double (kept as a
rational: exactness beyond double precision never matters to the claims, which
are about integer inputs), or one of the non-finite values, on which
`Number.isInteger` is false. -/
inductive JSNum where
  | num (q : ℚ)
  | nan
  | inf
  | negInf
deriving DecidableEq

/-- Model of `Number.isInteger`. -/
def jsIsInteger : JSNum → Bool
  | .num q => q.den == 1
  | _ => false

/-- The ways `generateHeader` can throw: its own guard, or the bounds check
node's `Buffer.writeUInt32LE` performs on the value written. -/
inductive HeaderErr where
  | invalidLength
  | rangeError
deriving DecidableEq, Repr

/-- Little-endian bytes of `Buffer.writeUInt16LE`. -/
def le16 (v : Nat) : List Nat := [v % 256, v / 256 % 256]

/-- Little-endian bytes of `Buffer.writeUInt32LE`. -/
def le32 (v : Nat) : List Nat :=
  [v % 256, v / 256 % 256, v / 65536 % 256, v / 16777216 % 256]

/-- ASCII bytes of a chunk-id string written with `buffer.write`. -/
def strBytes (s : String) : List Nat := s.data.map Char.toNat

/-- Little-endian decoding of four bytes, for stating the header claims. -/
def decodeLE32 (b0 b1 b2 b3 : Nat) : Nat :=
  b0 + 256 * b1 + 65536 * b2 + 16777216 * b3

/-- The 44 bytes `generateHeader` writes for payload length `n`: the
sequence of `buffer.write`/`writeUInt32LE`/`writeUInt16LE` calls at
offsets 0,4,8,12,16,20,22,24,28,32,34,36,40. -/
def headerBytes (n : Nat) : List Nat :=
  strBytes "RIFF" ++ le32 (n + 36) ++ strBytes "WAVE" ++
  strBytes "fmt " ++ le32 16 ++ le16 1 ++ le16 CHANNELS ++
  le32 SAMPLE_RATE ++ le32 BYTE_RATE ++ le16 BLOCK_ALIGN ++
  le16 BITS_PER_SAMPLE ++ strBytes "data" ++ le32 n

/-- Model of `WavHeaderGenerator.generateHeader`. Throws `invalidLength` when the
argument fails `Number.isInteger(x) && x >= 0`; otherwise writes the fixed
44-byte layout of `headerBytes`. `writeUInt32LE(totalSize, 4)` throws a
`RangeError` when `totalSize` exceeds `0xFFFFFFFF` (node bounds-checks the
value); all other written values are small constants or bounded by that
check. -/
def generateHeader (x : JSNum) : Except HeaderErr (List Nat) :=
  match x with
  | .num q =>
    if q.den ≠ 1 ∨ q < 0 then .error .invalidLength
    else
      let n := q.num.toNat
      if n + 36 > 4294967295 then .error .rangeError
      else .ok (headerBytes n)
  | _ => .error .invalidLength

/-! ## AudioProcessor.js: ledger parsing -/

/-- One parsed ledger entry (`{timestamp, size, index}`). -/
structure TimingEntry where
  timestamp : Int
  size : Int
  index : Nat
deriving Repr, DecidableEq

/-- The comma-split, trim-filtered segments `parseTimingData` iterates over
(`content.trim().split(',').filter(entry => entry.trim())`). -/
def ledgerSegments (content : String) : List (List Char) :=
  (splitOnChar ',' (trimChars content.data)).filter (fun e => trimChars e ≠ [])

/-- The body of the `.map` callback in `parseTimingData`: split one segment
on `/`, reject a falsy (empty or missing) field, then `parseInt` both. -/
def parseEntry (i : Nat) (seg : List Char) : Except String TimingEntry :=
  let fields := splitOnChar '/' seg
  let tsField := fields.headD []
  let szField := (fields.get? 1).getD []
  if tsField = [] ∨ szField = [] then
    .error ("Invalid timing entry at index " ++ toString i ++ ": " ++ ⟨seg⟩)
  else
    match jsParseIntChars tsField, jsParseIntChars szField with
    | some ts, some sz => .ok ⟨ts, sz, i⟩
    | _, _ => .error ("Invalid numbers in timing entry: " ++ ⟨seg⟩)

/-- The indexed traversal of `.map`: left to right, stopping at the first
thrown error. -/
def parseSegsFrom (i : Nat) : List (List Char) → Except String (List TimingEntry)
  | [] => .ok []
  | seg :: rest => do
    let e ← parseEntry i seg
    let es ← parseSegsFrom (i + 1) rest
    .ok (e :: es)

/-- Model of `AudioProcessor.parseTimingData`. -/
def parseTimingData (content : String) : Except String (List TimingEntry) :=
  parseSegsFrom 0 (ledgerSegments content)

/-- The `getTimingStats` result (the lazily-computed string getters
`durationSeconds`/`averageSize` are derived and not needed by any claim). -/
structure TimingStats where
  entryCount : Nat
  minTimestamp : Int
  maxTimestamp : Int
  totalBytes : Int
  durationMs : Int
deriving Repr, DecidableEq

/-- Model of `AudioProcessor.getTimingStats`: `null` (`none`) on an empty list,
otherwise `Math.min`/`Math.max` over the timestamps and the byte total. -/
def getTimingStats (entries : List TimingEntry) : Option TimingStats :=
  match entries with
  | [] => none
  | e :: es =>
    let mn := es.foldl (fun a x => min a x.timestamp) e.timestamp
    let mx := es.foldl (fun a x => max a x.timestamp) e.timestamp
    let total := (e :: es).foldl (fun a x => a + x.size) 0
    some ⟨(e :: es).length, mn, mx, total, mx - mn⟩

/-! ## BatchProcessor.js: answering-machine classifier -/

/-- A JS value as it can reach `detectAnsweringMachine`: `null`, a string,
or any non-string value (number, object, `undefined`, ...), which the
`typeof` guard treats alike. -/
inductive JsValue where
  | nullv
  | str (s : String)
  | other
deriving DecidableEq

/-- The in-code Japanese keyword list. -/
def japanesePatterns : List String :=
  ["留守番電話", "留守電", "るすでん", "不在",
   "ただいま", "外出中", "電話に出ることができません",
   "メッセージ", "お話しください", "お名前", "ご用件",
   "しばらくお待ちください", "後ほど", "かけ直し"]

/-- The in-code English keyword list. -/
def englishPatterns : List String :=
  ["voicemail", "answering machine", "leave a message",
   "not available", "away from", "please leave",
   "after the tone", "beep", "recording",
   "currently unavailable", "please call back"]

/-- Model of `BatchProcessor.detectAnsweringMachine`: false on falsy or non-string
input, otherwise substring membership of any keyword in the lower-cased
transcript. -/
def detectAnsweringMachine (transcript : JsValue) : Bool :=
  match transcript with
  | .str s =>
    if s = "" then false
    else
      let text := jsLower s
      (japanesePatterns ++ englishPatterns).any
        (fun pat => containsSub text.data pat.data)
  | _ => false

/-! ## SpeechProcessor.js: recognition-result processing -/

/-- One transcript alternative as consumed from the API response
(`alternative.confidence || 0` and `alternative.words || []` normalise the
absent fields, so `confidence` is a plain rational and `words` the word
count here). -/
structure Alt where
  transcript : String
  confidence : ℚ
  words : Nat
deriving DecidableEq

/-- The record built by `processRecognitionResults`. -/
structure RecognitionOut where
  transcripts : List Alt
  bestTranscript : String
  bestConfidence : ℚ
  transcribeText : String
  transcribeConfidence : ℚ
  totalWords : Nat
  isEmpty : Bool
  averageConfidence : ℚ

/-- The `for (result of response.results)` loop: each non-empty
`result.alternatives` contributes its first alternative, and the running
best is replaced only on a strictly larger confidence. Returns the pushed
alternatives and the final `(bestTranscript, bestConfidence)` pair. -/
def collectAlts : List (List Alt) → String × ℚ → List Alt × (String × ℚ)
  | [], best => ([], best)
  | r :: rest, best =>
    match r with
    | [] => collectAlts rest best
    | alt :: _ =>
      let best' :=
        if best.2 < alt.confidence then (alt.transcript, alt.confidence) else best
      let (ts, b) := collectAlts rest best'
      (alt :: ts, b)

/-- String of the concatenation in `transcribeText` (JS `join('')`). -/
def joinAll (l : List String) : String := l.foldl (fun a s => a ++ s) ""

/-- JS `String.prototype.trim` on a `String`. -/
def trimStr (s : String) : String := ⟨trimChars s.data⟩

/-- Model of `SpeechProcessor.processRecognitionResults`, over the list of
`result.alternatives` lists of the API response (`null` response models as
`[]`). -/
def processRecognitionResults (results : List (List Alt)) : RecognitionOut :=
  let (transcripts, best) := collectAlts results ("", 0)
  let valid := transcripts.filter (fun t => 0 < t.confidence)
  let transcribeText :=
    joinAll ((valid.map (fun t => trimStr t.transcript)).filter (fun s => s ≠ ""))
  { transcripts := transcripts
    bestTranscript := trimStr best.1
    bestConfidence := best.2
    transcribeText := trimStr transcribeText
    transcribeConfidence :=
      if valid.length ≠ 0 then
        (valid.foldl (fun a t => a + t.confidence) 0) / valid.length
      else 0
    totalWords := transcripts.foldl (fun a t => a + t.words) 0
    isEmpty := transcripts.isEmpty
    averageConfidence :=
      if transcripts.length ≠ 0 then
        (transcripts.foldl (fun a t => a + t.confidence) 0) / transcripts.length
      else 0 }

/-- The first alternative whose confidence is greatest (ties keep the
first): the reference point for the best-transcript claim. -/
def firstArgmax (alts : List Alt) : Option Alt :=
  alts.find? (fun a => alts.all (fun b => b.confidence ≤ a.confidence))

/-- The best-tracking part of the loop, flattened over the contributing
alternatives: strict improvement only, as in the source. -/
def bestFold : List Alt → String × ℚ → String × ℚ
  | [], b => b
  | alt :: rest, b =>
    bestFold rest
      (if b.2 < alt.confidence then (alt.transcript, alt.confidence) else b)

/-! ## BatchProcessor.js: CSV export -/

/-- JS `.replace` of every `"` by `""`: double every embedded quote. -/
def escapeChars : List Char → List Char
  | [] => []
  | c :: rest =>
    if c = '"' then '"' :: '"' :: escapeChars rest else c :: escapeChars rest

/-- String wrapper for `escapeChars`. -/
def csvEscape (s : String) : String := ⟨escapeChars s.data⟩

/-- A compliant CSV reader for one quoted field, after the opening quote:
a doubled quote is a literal quote, a single quote closes the field.
Returns the field content and the unconsumed remainder. -/
def readQuotedAux : List Char → Option (List Char × List Char)
  | [] => none
  | [c] => if c = '"' then some ([], []) else none
  | a :: b :: rest =>
    if a = '"' then
      if b = '"' then (readQuotedAux rest).map (fun p => ('"' :: p.1, p.2))
      else some ([], b :: rest)
    else (readQuotedAux (b :: rest)).map (fun p => (a :: p.1, p.2))

/-- A compliant CSV reader for one quoted field including its opening
quote. -/
def readQuotedField (cs : List Char) : Option (List Char × List Char) :=
  match cs with
  | '"' :: rest => readQuotedAux rest
  | _ => none

/-- JS `Array.prototype.join(sep)`. -/
def joinWith (sep : String) : List String → String
  | [] => ""
  | [x] => x
  | x :: rest => x ++ sep ++ joinWith sep rest

/-! ## The effect environment

Filesystem reads/writes, the Google Speech gateway and `Date.now` are
external effects; they are supplied as oracles in an `FsEnv` record, and
the batch code is a deterministic function of the oracle answers. The
shared mutable `PATHS` object and the `Date.now` call counter form the
explicit state `St` threaded through every call. -/

/-- The summary the rest of the batch consumes from a successful
transcription (`textResult.transcription.bestTranscript/" "bestConfidence`). -/
structure SpeechRes where
  bestTranscript : String
  bestConfidence : ℚ
deriving DecidableEq

/-- Oracles for the external effects. `statSize` answers `fs.stat` (`none`
is `ENOENT`); `speech` answers the whole Google recognize round-trip keyed
on base id and output directory. `clock` maps the index of a `Date.now`
call to the time it returns. -/
structure FsEnv where
  readText : String → Except String String
  statSize : String → Option Nat
  readBytes : String → Except String (List Nat)
  writeOk : String → Except String Unit
  access : String → Bool
  readdir : String → Except String (List String)
  mkdirOk : String → Except String Unit
  speech : String → String → Except String SpeechRes
  clock : Nat → Nat

/-- Threaded state: the mutable `PATHS` configuration plus the number of
`Date.now` calls made so far. -/
structure St where
  paths : Paths
  tick : Nat
deriving DecidableEq

/-! ## AudioProcessor.js: reading and reconstructing -/

/-- Model of `AudioProcessor.readAudioData`: stat, reject empty and oversized files,
then read. An absent file surfaces as the `ENOENT`-specific message. -/
def readAudioData (env : FsEnv) (filePath : String) : Except String (List Nat) :=
  match env.statSize filePath with
  | none => .error ("Audio file not found: " ++ filePath)
  | some size =>
    if size = 0 then .error ("Audio file is empty: " ++ filePath)
    else if size > MAX_FILE_SIZE then
      .error ("File too large: " ++ toString size ++ " bytes (max: " ++
              toString MAX_FILE_SIZE ++ ")")
    else env.readBytes filePath

/-- Last `/`-component removed: Node `dirname` as used for `ensureDirectory`. -/
def pathDirname (p : String) : String :=
  ⟨String.intercalate "/" (((splitOnChar '/' p.data).map
      (fun cs => (⟨cs⟩ : String))).dropLast) |>.data⟩

/-- Model of `AudioProcessor.ensureDirectory`: probe with `fs.access`, create on
failure (`mkdir` errors propagate). -/
def ensureDirectory (env : FsEnv) (dirPath : String) : Except String Unit :=
  if env.access dirPath then .ok () else env.mkdirOk dirPath

/-- The result of `createWavFile`; `container` records the byte sequence
handed to `fs.writeFile` (header concatenated with the payload). -/
structure WavInfo where
  filePath : String
  totalSize : Nat
  audioDataSize : Nat
  headerSize : Nat
  container : List Nat
deriving DecidableEq

/-- Model of `AudioProcessor.createWavFile`: generate the header for the payload's
actual length, concatenate, ensure the directory, write. A `generateHeader`
throw propagates with its message. -/
def createWavFile (env : FsEnv) (audioData : List Nat) (outputPath : String) :
    Except String WavInfo :=
  match generateHeader (.num audioData.length) with
  | .error .invalidLength =>
    .error ("Invalid audio data length: " ++ toString audioData.length)
  | .error .rangeError =>
    .error "The value of \x22value\x22 is out of range"
  | .ok header =>
    let wavData := header ++ audioData
    match ensureDirectory env (pathDirname outputPath) with
    | .error e => .error e
    | .ok _ =>
      match env.writeOk outputPath with
      | .error e => .error e
      | .ok _ =>
        .ok ⟨outputPath, wavData.length, audioData.length, header.length, wavData⟩

/-- The successful result of `processAudio`. `mismatchWarned` records
whether the non-fatal ledger/payload warning fired. -/
structure AudioOut where
  baseId : String
  dataFile : String
  timeSizeFile : String
  wavFile : String
  timing : TimingStats
  audioLength : Nat
  wav : WavInfo
  mismatchWarned : Bool
  processingTime : String
deriving DecidableEq

/-- Model of `AudioProcessor.processAudio`. Reads the ledger, parses it, computes
stats — the unconditional `timingStats.entryCount` access in the progress
log throws a `TypeError` when `getTimingStats` returned `null` — then reads
the payload, compares byte totals (warning only), and writes the container.
Every thrown error is re-wrapped with the `Audio processing failed` prefix
by the surrounding `catch`. Returns the result (or wrapped error) and the
advanced `Date.now` counter. -/
def processAudio (env : FsEnv) (baseId : String) (paths : Paths) (tick : Nat) :
    Except String AudioOut × Nat :=
  let t0 := env.clock tick
  let tick1 := tick + 1
  let dataFile := paths.dataDir ++ "/" ++ baseId ++ "_data"
  let timeSizeFile := paths.dataDir ++ "/" ++ baseId ++ "_timeSize"
  let wavFile := paths.outputDir ++ "/" ++ baseId ++ ".wav"
  let wrap := fun e => "Audio processing failed for " ++ baseId ++ ": " ++ e
  match env.readText timeSizeFile with
  | .error e => (.error (wrap e), tick1)
  | .ok timingContent =>
    match parseTimingData timingContent with
    | .error e => (.error (wrap e), tick1)
    | .ok timingEntries =>
      match getTimingStats timingEntries with
      | none =>
        (.error (wrap "Cannot read properties of null (reading 'entryCount')"),
         tick1)
      | some timingStats =>
        match readAudioData env dataFile with
        | .error e => (.error (wrap e), tick1)
        | .ok audioData =>
          let warned := timingStats.totalBytes != (audioData.length : Int)
          match createWavFile env audioData wavFile with
          | .error e => (.error (wrap e), tick1)
          | .ok wavInfo =>
            let t1 := env.clock tick1
            (.ok ⟨baseId, dataFile, timeSizeFile, wavFile, timingStats,
                  audioData.length, wavInfo, warned, fmtSeconds (t1 - t0)⟩,
             tick1 + 1)

/-! ## SpeechProcessor.js: the per-item speech stage -/

/-- The successful result of `processSpeech` (the parts the batch uses). -/
structure SpeechOut where
  wavFile : String
  txtFile : String
  bestTranscript : String
  bestConfidence : ℚ
  processingTime : String
deriving DecidableEq

/-- Model of `SpeechProcessor.processSpeech`: check the WAV exists, read it, call the
gateway, save the text file. Gateway and read failures are wrapped first by
`transcribeAudio` and then by `processSpeech` itself. -/
def processSpeech (env : FsEnv) (baseId : String) (paths : Paths) (tick : Nat) :
    Except String SpeechOut × Nat :=
  let wavFile := paths.outputDir ++ "/" ++ baseId ++ ".wav"
  let txtFile := paths.outputDir ++ "/" ++ baseId ++ ".txt"
  let wrap := fun e => "Speech processing failed for " ++ baseId ++ ": " ++ e
  match env.access wavFile with
  | false =>
    (.error (wrap ("ENOENT: no such file or directory, access " ++ wavFile)),
     tick)
  | true =>
    let t0 := env.clock tick
    match env.readBytes wavFile with
    | .error e => (.error (wrap ("Speech transcription failed: " ++ e)), tick + 1)
    | .ok _ =>
      match env.speech baseId paths.outputDir with
      | .error e =>
        (.error (wrap ("Speech transcription failed: " ++ e)), tick + 1)
      | .ok tr =>
        let t1 := env.clock (tick + 1)
        match env.writeOk txtFile with
        | .error e =>
          (.error (wrap ("Failed to save transcription: " ++ e)), tick + 2)
        | .ok _ =>
          (.ok ⟨wavFile, txtFile, tr.bestTranscript, tr.bestConfidence,
                fmtSeconds (t1 - t0)⟩, tick + 2)

/-! ## BatchProcessor.js: per-item workflow and folder batch -/

/-- One `processCompleteWorkflow` result. Fields that the JS object only
carries on one of the two outcomes default to the empty value on the
other. -/
structure ItemResult where
  baseId : String
  success : Bool
  processingTime : String
  wavFile : String := ""
  txtFile : String := ""
  amDetected : Bool := false
  amTranscript : String := ""
  amConfidence : ℚ := 0
  error : String := ""
deriving DecidableEq

/-- Model of `BatchProcessor.processCompleteWorkflow`: run audio reconstruction then
speech then classification; any stage failure is caught and recorded, never
re-thrown. `PATHS.DATA_DIR` is overridden while a source path is given and
restored only on the success path (the `catch` block returns without
restoring it — mirrored exactly). -/
def processCompleteWorkflow (env : FsEnv) (baseId : String)
    (sourcePath : Option String) (st : St) : ItemResult × St :=
  let t0 := env.clock st.tick
  let tick := st.tick + 1
  let origDataDir := st.paths.dataDir
  let paths1 := match sourcePath with
    | some p => { st.paths with dataDir := p }
    | none => st.paths
  match processAudio env baseId paths1 tick with
  | (.error e, tick2) =>
    let t1 := env.clock tick2
    ({ baseId := baseId, success := false,
       processingTime := fmtSeconds (t1 - t0), error := e },
     ⟨paths1, tick2 + 1⟩)
  | (.ok wavResult, tick2) =>
    match processSpeech env baseId paths1 tick2 with
    | (.error e, tick3) =>
      let t1 := env.clock tick3
      ({ baseId := baseId, success := false,
         processingTime := fmtSeconds (t1 - t0), error := e },
       ⟨paths1, tick3 + 1⟩)
    | (.ok textResult, tick3) =>
      let detected := detectAnsweringMachine (.str textResult.bestTranscript)
      let paths2 := match sourcePath with
        | some _ => { paths1 with dataDir := origDataDir }
        | none => paths1
      let t1 := env.clock tick3
      ({ baseId := baseId, success := true,
         processingTime := fmtSeconds (t1 - t0),
         wavFile := wavResult.wav.filePath, txtFile := textResult.txtFile,
         amDetected := detected,
         amTranscript := textResult.bestTranscript,
         amConfidence := textResult.bestConfidence },
       ⟨paths2, tick3 + 1⟩)

/-- JS `str.endsWith(pat)`. -/
def endsWithStr (s pat : String) : Bool := pat.data.isSuffixOf s.data

/-- One step of the discovery loop over the folder listing: qualify files
ending in `_data`, derive the id with `replace` (first occurrence!), keep
it only when the companion `_timeSize` file is accessible, de-duplicating
like the `Set` does (first insertion wins, order kept). -/
def discoverStep (env : FsEnv) (folderPath : String) (acc : List String)
    (file : String) : List String :=
  if endsWithStr file "_data" then
    let baseId := replaceFirstStr file "_data" ""
    if env.access (pathJoin folderPath (baseId ++ "_timeSize")) then
      if acc.contains baseId then acc else acc ++ [baseId]
    else acc
  else acc

/-- Lexicographic code-unit comparison, the default JS sort order. -/
def charListLt : List Char → List Char → Bool
  | _, [] => false
  | [], _ :: _ => true
  | a :: as, b :: bs =>
    if a.toNat < b.toNat then true
    else if b.toNat < a.toNat then false
    else charListLt as bs

/-- True when `a` sorts no later than `b` under the default JS comparator. -/
def strLe (a b : String) : Bool := !(charListLt b.data a.data)

/-- Insertion into a sorted list, for the final `.sort()`. -/
def insertSorted (x : String) : List String → List String
  | [] => [x]
  | y :: ys => if strLe x y then x :: y :: ys else y :: insertSorted x ys

/-- JS `Array.prototype.sort` on strings (ascending code-unit order). -/
def sortStrings (l : List String) : List String := l.foldr insertSorted []

/-- Model of `BatchProcessor.discoverAudioFiles`. -/
def discoverAudioFiles (env : FsEnv) (folderPath : String) :
    Except String (List String) :=
  match env.readdir folderPath with
  | .error e =>
    .error ("Failed to discover audio files in " ++ folderPath ++ ": " ++ e)
  | .ok files => .ok (sortStrings (files.foldl (discoverStep env folderPath) []))

/-- The sequential `for` loop of `processFolderBatch` over the discovered
ids, threading the shared state. -/
def batchLoop (env : FsEnv) (folderPath : String) :
    List String → St → List ItemResult × St
  | [], st => ([], st)
  | id :: rest, st =>
    let (r, st1) := processCompleteWorkflow env id (some folderPath) st
    let (rs, st2) := batchLoop env folderPath rest st1
    (r :: rs, st2)

/-- A batch outcome (`batchResult`). The summary counters equal the
incremental `successCount++`/`failureCount++` counters of the loop. -/
structure BatchOut where
  folderPath : String
  folderName : String
  success : Bool
  processingTime : String
  totalFiles : Nat := 0
  successCount : Nat := 0
  failureCount : Nat := 0
  answeringMachineCount : Nat := 0
  successRate : ℚ := 0
  detectionRate : ℚ := 0
  results : List ItemResult := []
  error : String := ""

/-- Model of `BatchProcessor.processFolderBatch`: create the folder output
directory, temporarily point `PATHS.OUTPUT_DIR` at it, discover, run every
item, summarise; the `finally` restores `PATHS.OUTPUT_DIR` on every inner
path, and the outer `catch` turns any failure into an unsuccessful
`BatchOut`. -/
def processFolderBatch (env : FsEnv) (folderPath : String) (st : St) :
    BatchOut × St :=
  let t0 := env.clock st.tick
  let tick1 := st.tick + 1
  let folderName := pathBasename folderPath
  let fail := fun (e : String) (stEnd : St) =>
    let t1 := env.clock stEnd.tick
    (({ folderPath := folderPath, folderName := folderName, success := false,
        processingTime := fmtSeconds (t1 - t0), error := e } : BatchOut),
     { stEnd with tick := stEnd.tick + 1 })
  match env.mkdirOk (pathJoin st.paths.outputDir folderName) with
  | .error e =>
    fail ("Failed to create output directory " ++
          pathJoin st.paths.outputDir folderName ++ ": " ++ e)
      ⟨st.paths, tick1⟩
  | .ok _ =>
    let originalOutputDir := st.paths.outputDir
    let paths1 := { st.paths with outputDir := pathJoin originalOutputDir folderName }
    match discoverAudioFiles env folderPath with
    | .error e => fail e ⟨{ paths1 with outputDir := originalOutputDir }, tick1⟩
    | .ok baseIds =>
      if baseIds.isEmpty then
        fail ("No audio files found in " ++ folderPath)
          ⟨{ paths1 with outputDir := originalOutputDir }, tick1⟩
      else
        let (results, st2) := batchLoop env folderPath baseIds ⟨paths1, tick1⟩
        let t1 := env.clock st2.tick
        let successCount := results.countP (fun r => r.success)
        let failureCount := results.countP (fun r => !r.success)
        let amCount := results.countP (fun r => r.success && r.amDetected)
        ({ folderPath := folderPath, folderName := folderName, success := true,
           processingTime := fmtSeconds (t1 - t0),
           totalFiles := baseIds.length,
           successCount := successCount, failureCount := failureCount,
           answeringMachineCount := amCount,
           successRate := (successCount : ℚ) / (baseIds.length : ℚ),
           detectionRate :=
             if 0 < successCount then (amCount : ℚ) / (successCount : ℚ) else 0,
           results := results },
         ⟨{ st2.paths with outputDir := originalOutputDir }, st2.tick + 1⟩)

/-- One data row of `exportResultsToCSV`, in the fixed column order
`id, transcript, confidence, detection, wav path, txt path, processing
time, success, error`. -/
def csvRow (r : ItemResult) : String :=
  joinWith ","
    ["\x22" ++ r.baseId ++ "\x22",
     "\x22" ++ (if r.success then csvEscape r.amTranscript else "") ++ "\x22",
     if r.success then toFixed3 r.amConfidence else "",
     if r.success then (if r.amDetected then "TRUE" else "FALSE") else "",
     if r.success then "\x22" ++ r.wavFile ++ "\x22" else "",
     if r.success then "\x22" ++ r.txtFile ++ "\x22" else "",
     "\x22" ++ r.processingTime ++ "\x22",
     if r.success then "TRUE" else "FALSE",
     if r.success then "" else "\x22" ++ csvEscape r.error ++ "\x22"]

/-- The header row of `exportResultsToCSV` (Japanese column titles). -/
def csvHeaders : List String :=
  ["id", "テキスト", "テキスト信頼度", "機械音声判定", "wavファイルパス",
   "txtファイルパス", "処理時間", "成功", "エラー"]

/-- The full CSV text handed to `fs.writeFile`. -/
def csvContent (results : List ItemResult) : String :=
  joinWith "\n" (joinWith "," csvHeaders :: results.map csvRow)

/-! ## Statement-side predicates

Definitions below restate concepts from the specification's wording, to be
compared against the source-derived functions above. -/

/-- The spec's domain condition for `header`: the argument is a
non-negative integer. -/
def isNonNegIntJS : JSNum → Prop
  | .num q => q.den = 1 ∧ 0 ≤ q
  | _ => False

instance : DecidablePred isNonNegIntJS := fun x =>
  match x with
  | .num _ => inferInstanceAs (Decidable (_ ∧ _))
  | .nan => inferInstanceAs (Decidable False)
  | .inf => inferInstanceAs (Decidable False)
  | .negInf => inferInstanceAs (Decidable False)

/-- A ledger segment the parser accepts: first `/`-field non-empty, second
present and non-empty, and `parseInt` succeeds on both. -/
def goodSeg (seg : List Char) : Bool :=
  let fields := splitOnChar '/' seg
  let tsField := fields.headD []
  let szField := (fields.get? 1).getD []
  tsField ≠ [] && szField ≠ [] &&
    (jsParseIntChars tsField).isSome && (jsParseIntChars szField).isSome

/-- The entry a good segment parses to, at sequence position `i`. -/
def entryOfSeg (i : Nat) (seg : List Char) : TimingEntry :=
  let fields := splitOnChar '/' seg
  ⟨(jsParseIntChars (fields.headD [])).getD 0,
   (jsParseIntChars ((fields.get? 1).getD [])).getD 0, i⟩

/-- The data-model invariant the spec states for a `TimingLedger`:
non-empty, positive sizes, non-negative fields. -/
def ledgerInvariant (l : List TimingEntry) : Prop :=
  l ≠ [] ∧ ∀ e ∈ l, 0 < e.size ∧ 0 ≤ e.timestamp ∧ 0 ≤ e.size

instance (l : List TimingEntry) : Decidable (ledgerInvariant l) :=
  inferInstanceAs (Decidable (_ ∧ _))

/-- The first alternative of each result, in order: the sequence of
alternatives the best-transcript claim ranges over. -/
def headAlts (results : List (List Alt)) : List Alt :=
  results.filterMap List.head?

/-- A CSV field that is quoted: starts and ends with a double quote. -/
def isQuotedField (s : String) : Bool :=
  match s.data with
  | [] => false
  | c :: cs =>
    c == '"' && (match cs.getLast? with | some d => d == '"' | none => false)

/-- The per-item pipeline succeeds end-to-end for `baseId` under `paths`
(success is independent of the `Date.now` counter, proved below). -/
def pipelineOk (env : FsEnv) (baseId : String) (paths : Paths) : Bool :=
  (processAudio env baseId paths 0).1.isOk &&
    (processSpeech env baseId paths 0).1.isOk

/-- The entries a list of good segments parses to, starting at sequence
position `i`: the reference value for the parser claims. -/
def entriesOfSegs (i : Nat) : List (List Char) → List TimingEntry
  | [] => []
  | seg :: rest => entryOfSeg i seg :: entriesOfSegs (i + 1) rest

/-! ## Concrete environments used by the witnesses -/

/-- A folder `d` containing only the oddly named `x_data_y_data` payload
file, with an `x_y_data_timeSize` ledger present. -/
def c10Env : FsEnv where
  readText := fun _ => .error "ENOENT"
  statSize := fun _ => none
  readBytes := fun _ => .error "ENOENT"
  writeOk := fun _ => .ok ()
  access := fun p => p == "d/x_y_data_timeSize"
  readdir := fun p => if p == "d" then .ok ["x_data_y_data"] else .error "ENOENT"
  mkdirOk := fun _ => .ok ()
  speech := fun _ _ => .error "no gateway"
  clock := fun n => n

/-- A data directory holding, for base id `a`, a ledger totalling 800 bytes
and a 3-byte payload — a byte-count mismatch. -/
def c1Env : FsEnv where
  readText := fun p =>
    if p == "./data/a_timeSize" then .ok "0/320,40/320,80/160"
    else .error "ENOENT"
  statSize := fun p => if p == "./data/a_data" then some 3 else none
  readBytes := fun p =>
    if p == "./data/a_data" then .ok [1, 2, 3] else .error "ENOENT"
  writeOk := fun _ => .ok ()
  access := fun _ => true
  readdir := fun _ => .error "ENOENT"
  mkdirOk := fun _ => .ok ()
  speech := fun _ _ => .error "no gateway"
  clock := fun n => n

/-- As `c1Env`, but the ledger file for `a` holds `","`, which parses
successfully to an empty ledger. -/
def c1BadEnv : FsEnv where
  readText := fun p =>
    if p == "./data/a_timeSize" then .ok "," else .error "ENOENT"
  statSize := fun p => if p == "./data/a_data" then some 1 else none
  readBytes := fun p =>
    if p == "./data/a_data" then .ok [0] else .error "ENOENT"
  writeOk := fun _ => .ok ()
  access := fun _ => true
  readdir := fun _ => .error "ENOENT"
  mkdirOk := fun _ => .ok ()
  speech := fun _ _ => .error "no gateway"
  clock := fun n => n

/-- A folder `d` with three item pairs whose ledgers are valid for `a` and
`b` but malformed (`"x"`) for `c`, and a gateway that transcribes
everything as a confident `"hello"`. -/
def c3Env : FsEnv where
  readText := fun p =>
    if p == "d/c_timeSize" then .ok "x"
    else if p == "d/a_timeSize" || p == "d/b_timeSize" then .ok "0/1"
    else .error "ENOENT"
  statSize := fun p =>
    if p == "d/a_data" || p == "d/b_data" || p == "d/c_data" then some 1
    else none
  readBytes := fun _ => .ok [7]
  writeOk := fun _ => .ok ()
  access := fun _ => true
  readdir := fun p =>
    if p == "d" then .ok ["a_data", "b_data", "c_data"] else .error "ENOENT"
  mkdirOk := fun _ => .ok ()
  speech := fun _ _ => .ok ⟨"hello", 1⟩
  clock := fun n => n

/-! ## Helper lemmas -/

theorem char_toNat_ofNat_of_lt {n : Nat} (h : n < 55296) :
    (Char.ofNat n).toNat = n := by
  rw [Char.ofNat, dif_pos (Or.inl h)]
  rfl

theorem headerBytes_eq (n : Nat) :
    headerBytes n =
      [82, 73, 70, 70,
       (n + 36) % 256, (n + 36) / 256 % 256, (n + 36) / 65536 % 256,
       (n + 36) / 16777216 % 256,
       87, 65, 86, 69, 102, 109, 116, 32, 16, 0, 0, 0, 1, 0, 1, 0,
       64, 31, 0, 0, 128, 62, 0, 0, 2, 0, 16, 0, 100, 97, 116, 97,
       n % 256, n / 256 % 256, n / 65536 % 256, n / 16777216 % 256] := rfl

theorem decodeLE32_le32 (v : Nat) (h : v ≤ 4294967295) :
    decodeLE32 (v % 256) (v / 256 % 256) (v / 65536 % 256)
      (v / 16777216 % 256) = v := by
  simp only [decodeLE32]
  omega

/-! ## C2: header generation -/

/-- C2 (amended): header generation fails with `InvalidLengthError` exactly
when the input is not a non-negative integer; for every non-negative
integer `n` with `n + 36 ≤ 0xFFFFFFFF` it returns exactly 44 bytes whose
bytes 4–7 little-endian decode to `n + 36` and whose bytes 40–43 decode to
`n` (beyond that bound the `writeUInt32LE` bounds check raises a
`RangeError` instead — see the counterexample). -/
theorem C2_header_generation (x : JSNum) :
    (generateHeader x = .error .invalidLength ↔ ¬ isNonNegIntJS x) ∧
    (∀ q : ℚ, x = .num q → q.den = 1 → 0 ≤ q → q.num + 36 ≤ 4294967295 →
      ∃ bs, generateHeader x = .ok bs ∧ bs.length = 44 ∧
        decodeLE32 (bs.getD 4 0) (bs.getD 5 0) (bs.getD 6 0) (bs.getD 7 0) =
          q.num.toNat + 36 ∧
        decodeLE32 (bs.getD 40 0) (bs.getD 41 0) (bs.getD 42 0) (bs.getD 43 0) =
          q.num.toNat) := by
  constructor
  · cases x with
    | num q =>
      simp only [generateHeader, isNonNegIntJS]
      by_cases hguard : q.den ≠ 1 ∨ q < 0
      · rw [if_pos hguard]
        simp only [true_iff, iff_true_intro rfl]
        rcases hguard with h | h
        · exact fun hc => h hc.1
        · exact fun hc => absurd hc.2 (not_le.mpr h)
      · rw [if_neg hguard]
        push_neg at hguard
        by_cases hrange : q.num.toNat + 36 > 4294967295
        · rw [if_pos hrange]
          constructor
          · intro h
            exact absurd (Except.error.inj h) (by decide)
          · intro h
            exact absurd ⟨hguard.1, hguard.2⟩ h
        · rw [if_neg hrange]
          constructor
          · intro h
            exact absurd h (by simp)
          · intro h
            exact absurd ⟨hguard.1, hguard.2⟩ h
    | nan => simp [generateHeader, isNonNegIntJS]
    | inf => simp [generateHeader, isNonNegIntJS]
    | negInf => simp [generateHeader, isNonNegIntJS]
  · rintro q rfl hden hpos hbound
    have hnum : 0 ≤ q.num := Rat.num_nonneg.mpr hpos
    have htn : (q.num.toNat : ℤ) = q.num := Int.toNat_of_nonneg hnum
    have hb : q.num.toNat + 36 ≤ 4294967295 := by omega
    refine ⟨headerBytes q.num.toNat, ?_, ?_, ?_, ?_⟩
    · simp only [generateHeader]
      rw [if_neg (by push_neg; exact ⟨hden, not_lt.mp (by simpa using hpos)⟩),
          if_neg (by omega)]
    · rw [headerBytes_eq]
      rfl
    · rw [headerBytes_eq]
      exact decodeLE32_le32 (q.num.toNat + 36) hb
    · rw [headerBytes_eq]
      exact decodeLE32_le32 q.num.toNat (by omega)

/-- Witness for C2 at `n = 320`: the header is 44 bytes, bytes 4–7 decode
to 356, bytes 40–43 to 320. -/
theorem C2_header_generation_witness :
    ∃ bs, generateHeader (.num 320) = .ok bs ∧ bs.length = 44 ∧
      decodeLE32 (bs.getD 4 0) (bs.getD 5 0) (bs.getD 6 0) (bs.getD 7 0) =
        (320 : ℚ).num.toNat + 36 ∧
      decodeLE32 (bs.getD 40 0) (bs.getD 41 0) (bs.getD 42 0) (bs.getD 43 0) =
        (320 : ℚ).num.toNat :=
  (C2_header_generation (.num 320)).2 320 rfl (by decide) (by decide) (by decide)

/-- Counterexample to C2 as stated: `4294967260` is a non-negative integer,
yet `generateHeader` does not return 44 bytes for it — the RIFF-size write
`4294967260 + 36 = 2^32` fails node's `writeUInt32LE` bounds check with a
`RangeError` (which is not an `InvalidLengthError`). -/
theorem C2_header_generation_counterexample :
    isNonNegIntJS (.num 4294967260) ∧
    generateHeader (.num 4294967260) = .error .rangeError ∧
    HeaderErr.rangeError ≠ HeaderErr.invalidLength := by
  refine ⟨by decide, by decide, by decide⟩

/-! ## C6: the classifier is total and case-insensitive -/

theorem jsToLower_idem (c : Char) : jsToLower (jsToLower c) = jsToLower c := by
  unfold jsToLower
  by_cases h : 65 ≤ c.toNat ∧ c.toNat ≤ 90
  · rw [if_pos h]
    have ht : (Char.ofNat (c.toNat + 32)).toNat = c.toNat + 32 :=
      char_toNat_ofNat_of_lt (by omega)
    rw [if_neg (by rw [ht]; omega)]
  · rw [if_neg h, if_neg h]

theorem jsLower_idem (s : String) : jsLower (jsLower s) = jsLower s := by
  apply String.ext
  show (s.data.map jsToLower).map jsToLower = s.data.map jsToLower
  rw [List.map_map]
  exact List.map_congr_left (fun c _ => jsToLower_idem c)

theorem jsLower_eq_empty {s : String} (h : jsLower s = "") : s = "" := by
  have hd : s.data.map jsToLower = [] := congrArg String.data h
  have : s.data = [] := List.map_eq_nil_iff.mp hd
  exact String.ext this

/-- C6: `classify` is total over JS values and case-insensitive: it agrees
on a string and its lower-casing, accepts `"VOICEMAIL"` and `"voicemail"`,
and returns false on the empty string, `null`, and non-string values. -/
theorem C6_classify_total_case_insensitive :
    (∀ s : String,
      detectAnsweringMachine (.str s) = detectAnsweringMachine (.str (jsLower s))) ∧
    detectAnsweringMachine (.str "VOICEMAIL") = true ∧
    detectAnsweringMachine (.str "voicemail") = true ∧
    detectAnsweringMachine (.str "") = false ∧
    detectAnsweringMachine .nullv = false ∧
    detectAnsweringMachine .other = false := by
  refine ⟨?_, by decide, by decide, by decide, rfl, rfl⟩
  intro s
  by_cases hs : s = ""
  · subst hs
    rfl
  · have hls : jsLower s ≠ "" := fun h => hs (jsLower_eq_empty h)
    have hdet : ∀ t : String, detectAnsweringMachine (.str t) =
        if t = "" then false
        else (japanesePatterns ++ englishPatterns).any
          (fun pat => containsSub (jsLower t).data pat.data) := fun _ => rfl
    rw [hdet, hdet, if_neg hs, if_neg hls, jsLower_idem]

/-! ## C10: discovery id derivation -/

theorem mem_insertSorted {x y : String} {l : List String} :
    x ∈ insertSorted y l ↔ x = y ∨ x ∈ l := by
  induction l with
  | nil => simp [insertSorted]
  | cons h t ih =>
    simp only [insertSorted]
    split
    · simp
    · simp only [List.mem_cons, ih]
      tauto

theorem mem_sortStrings {x : String} {l : List String} :
    x ∈ sortStrings l ↔ x ∈ l := by
  induction l with
  | nil => simp [sortStrings]
  | cons h t ih =>
    show x ∈ insertSorted h (sortStrings t) ↔ _
    rw [mem_insertSorted, ih]
    simp

theorem mem_discoverStep (env : FsEnv) (folder : String) (acc : List String)
    (f id : String) :
    id ∈ discoverStep env folder acc f ↔
      id ∈ acc ∨
        (endsWithStr f "_data" = true ∧ replaceFirstStr f "_data" "" = id ∧
         env.access (pathJoin folder (id ++ "_timeSize")) = true) := by
  unfold discoverStep
  by_cases hend : endsWithStr f "_data" = true
  · rw [if_pos hend]
    by_cases hacc : env.access (pathJoin folder (replaceFirstStr f "_data" "" ++ "_timeSize")) = true
    · rw [if_pos hacc]
      by_cases hmem : acc.contains (replaceFirstStr f "_data" "") = true
      · rw [if_pos hmem]
        constructor
        · intro h
          exact Or.inl h
        · rintro (h | ⟨-, rfl, -⟩)
          · exact h
          · exact List.mem_of_elem_eq_true hmem
      · rw [if_neg hmem]
        rw [List.mem_append, List.mem_singleton]
        constructor
        · rintro (h | rfl)
          · exact Or.inl h
          · exact Or.inr ⟨hend, rfl, hacc⟩
        · rintro (h | ⟨-, rfl, -⟩)
          · exact Or.inl h
          · exact Or.inr rfl
    · rw [if_neg hacc]
      constructor
      · exact Or.inl
      · rintro (h | ⟨-, rfl, hacc2⟩)
        · exact h
        · exact absurd hacc2 hacc
  · rw [if_neg hend]
    constructor
    · exact Or.inl
    · rintro (h | ⟨hend2, -, -⟩)
      · exact h
      · exact absurd hend2 hend

theorem mem_discoverFold (env : FsEnv) (folder : String) (files : List String)
    (acc : List String) (id : String) :
    id ∈ files.foldl (discoverStep env folder) acc ↔
      id ∈ acc ∨
        ∃ f ∈ files, endsWithStr f "_data" = true ∧
          replaceFirstStr f "_data" "" = id ∧
          env.access (pathJoin folder (id ++ "_timeSize")) = true := by
  induction files generalizing acc with
  | nil => simp
  | cons f fs ih =>
    rw [List.foldl_cons, ih, mem_discoverStep]
    simp only [List.mem_cons]
    constructor
    · rintro ((h | hf) | ⟨g, hg, hrest⟩)
      · exact Or.inl h
      · exact Or.inr ⟨f, Or.inl rfl, hf⟩
      · exact Or.inr ⟨g, Or.inr hg, hrest⟩
    · rintro (h | ⟨g, (rfl | hg), hrest⟩)
      · exact Or.inl (Or.inl h)
      · exact Or.inl (Or.inr hrest)
      · exact Or.inr ⟨g, hg, hrest⟩

/-- C10: discovery derives ids by removing the *first* occurrence of
`_data` (not by stripping the suffix): concretely
`"x_data_y_data" ↦ "x_y_data"`; and an id derived from a qualifying
filename is admitted exactly when the companion `<id>_timeSize` file is
accessible in the folder. -/
theorem C10_discovery_id_derivation (env : FsEnv) (folder : String)
    (files : List String) (f id : String)
    (hrd : env.readdir folder = .ok files) (hf : f ∈ files)
    (hend : endsWithStr f "_data" = true)
    (hid : replaceFirstStr f "_data" "" = id) :
    replaceFirstStr "x_data_y_data" "_data" "" = "x_y_data" ∧
    ∃ ids, discoverAudioFiles env folder = .ok ids ∧
      (id ∈ ids ↔ env.access (pathJoin folder (id ++ "_timeSize")) = true) := by
  refine ⟨by decide, ?_⟩
  refine ⟨sortStrings (files.foldl (discoverStep env folder) []), ?_, ?_⟩
  · unfold discoverAudioFiles
    rw [hrd]
  · rw [mem_sortStrings, mem_discoverFold]
    constructor
    · rintro (h | ⟨g, -, -, -, hacc⟩)
      · exact absurd h (List.not_mem_nil id)
      · exact hacc
    · intro hacc
      exact Or.inr ⟨f, hf, hend, hid, hacc⟩

/-- Witness for C10 in the concrete folder `d`: the single file
`x_data_y_data` qualifies, derives id `x_y_data`, and is admitted because
`x_y_data_timeSize` is accessible. -/
theorem C10_discovery_id_derivation_witness :
    replaceFirstStr "x_data_y_data" "_data" "" = "x_y_data" ∧
    ∃ ids, discoverAudioFiles c10Env "d" = .ok ids ∧
      ("x_y_data" ∈ ids ↔
        c10Env.access (pathJoin "d" ("x_y_data" ++ "_timeSize")) = true) :=
  C10_discovery_id_derivation c10Env "d" ["x_data_y_data"] "x_data_y_data"
    "x_y_data" (by decide) (by decide) (by decide) (by decide)

/-! ## C4 and C5: ledger parsing -/

theorem except_bind_ok {ε α β : Type} (a : α) (f : α → Except ε β) :
    ((Except.ok a : Except ε α) >>= f) = f a := rfl

theorem except_bind_error {ε α β : Type} (e : ε) (f : α → Except ε β) :
    ((Except.error e : Except ε α) >>= f) = Except.error e := rfl

theorem isOk_ok {ε α : Type} (a : α) : (Except.ok a : Except ε α).isOk = true := rfl

theorem isOk_error {ε α : Type} (e : ε) :
    (Except.error e : Except ε α).isOk = false := rfl

theorem parseEntry_eq (i : Nat) (seg : List Char) :
    parseEntry i seg =
      (if (splitOnChar '/' seg).headD [] = [] ∨
          ((splitOnChar '/' seg).get? 1).getD [] = [] then
        .error ("Invalid timing entry at index " ++ toString i ++ ": " ++ ⟨seg⟩)
      else
        match jsParseIntChars ((splitOnChar '/' seg).headD []),
          jsParseIntChars (((splitOnChar '/' seg).get? 1).getD []) with
        | some ts, some sz => .ok ⟨ts, sz, i⟩
        | _, _ => .error ("Invalid numbers in timing entry: " ++ ⟨seg⟩)) := rfl

theorem parseEntry_isOk (i : Nat) (seg : List Char) :
    (parseEntry i seg).isOk = goodSeg seg := by
  rw [parseEntry_eq]
  show _ = ((_ : Bool) && _ && _ && _)
  generalize (splitOnChar '/' seg).headD [] = ts
  generalize ((splitOnChar '/' seg).get? 1).getD [] = sz
  by_cases h1 : ts = [] ∨ sz = []
  · rw [if_pos h1]
    rcases h1 with h | h <;> simp [h, isOk_error]
  · rw [if_neg h1]
    push_neg at h1
    cases hp : jsParseIntChars ts <;> cases hq : jsParseIntChars sz <;>
      simp [h1.1, h1.2, isOk_ok, isOk_error]

theorem parseEntry_ok {i : Nat} {seg : List Char} {e : TimingEntry}
    (h : parseEntry i seg = .ok e) : e = entryOfSeg i seg := by
  rw [parseEntry_eq] at h
  show e = (⟨(jsParseIntChars ((splitOnChar '/' seg).headD [])).getD 0,
            (jsParseIntChars (((splitOnChar '/' seg).get? 1).getD [])).getD 0,
            i⟩ : TimingEntry)
  revert h
  generalize (splitOnChar '/' seg).headD [] = ts
  generalize ((splitOnChar '/' seg).get? 1).getD [] = sz
  intro h
  by_cases h1 : ts = [] ∨ sz = []
  · rw [if_pos h1] at h
    exact absurd h (by simp)
  · rw [if_neg h1] at h
    cases hp : jsParseIntChars ts <;> cases hq : jsParseIntChars sz <;>
      rw [hp, hq] at h
    · exact absurd h (by simp)
    · exact absurd h (by simp)
    · exact absurd h (by simp)
    · cases h
      simp [hp, hq]

theorem parseSegsFrom_isOk (i : Nat) (segs : List (List Char)) :
    (parseSegsFrom i segs).isOk = segs.all goodSeg := by
  induction segs generalizing i with
  | nil => rfl
  | cons seg rest ih =>
    rw [List.all_cons, ← parseEntry_isOk i seg, ← ih (i + 1)]
    cases hpe : parseEntry i seg with
    | error m =>
      simp [parseSegsFrom, hpe, except_bind_error, isOk_error]
    | ok e =>
      cases hps : parseSegsFrom (i + 1) rest with
      | error m =>
        simp [parseSegsFrom, hpe, hps, except_bind_ok, except_bind_error,
              isOk_ok, isOk_error]
      | ok es =>
        simp [parseSegsFrom, hpe, hps, except_bind_ok, isOk_ok]

theorem parseSegsFrom_ok {i : Nat} {segs : List (List Char)}
    {l : List TimingEntry} (h : parseSegsFrom i segs = .ok l) :
    l = entriesOfSegs i segs := by
  induction segs generalizing i l with
  | nil =>
    cases h
    rfl
  | cons seg rest ih =>
    rw [parseSegsFrom] at h
    cases hpe : parseEntry i seg with
    | error m =>
      rw [hpe, except_bind_error] at h
      exact absurd h (by simp)
    | ok e =>
      rw [hpe, except_bind_ok] at h
      cases hps : parseSegsFrom (i + 1) rest with
      | error m =>
        rw [hps, except_bind_error] at h
        exact absurd h (by simp)
      | ok es =>
        rw [hps, except_bind_ok] at h
        cases h
        rw [entriesOfSegs, ← parseEntry_ok hpe, ih hps]

/-- C4 (amended): parsing fails exactly when some comma-separated segment
(after trimming and discarding empty segments) is bad in the code's sense:
its first `/`-field is empty, its second `/`-field is missing or empty, or
JS `parseInt` yields `NaN` on either field. Surplus `/`-fields beyond the
second are ignored rather than rejected, and `parseInt`'s prefix semantics
tolerate signs and trailing garbage, so a field need not be a well-formed
non-negative integer. On success the entries appear in segment order with
`sequenceIndex` equal to the segment position. -/
theorem C4_parse_error_condition (content : String) :
    ((parseTimingData content).isOk = (ledgerSegments content).all goodSeg) ∧
    (∀ l, parseTimingData content = .ok l →
      l = entriesOfSegs 0 (ledgerSegments content)) :=
  ⟨parseSegsFrom_isOk 0 (ledgerSegments content),
   fun _ h => parseSegsFrom_ok h⟩

/-- Witness for C4 on `"0/320,40/320"`: both segments are good, parsing
succeeds, and the result is the segment-indexed entry list. -/
theorem C4_parse_error_condition_witness :
    (parseTimingData "0/320,40/320").isOk =
      (ledgerSegments "0/320,40/320").all goodSeg ∧
    ([⟨0, 320, 0⟩, ⟨40, 320, 1⟩] : List TimingEntry) =
      entriesOfSegs 0 (ledgerSegments "0/320,40/320") :=
  ⟨(C4_parse_error_condition "0/320,40/320").1,
   (C4_parse_error_condition "0/320,40/320").2 [⟨0, 320, 0⟩, ⟨40, 320, 1⟩]
     (by decide)⟩

/-- Counterexample to C4 as stated: the segment `1/2/3` does not split on
`/` into exactly two fields, and `-1` is not a non-negative integer, yet
both ledgers parse successfully instead of raising a malformed-entry
error. -/
theorem C4_parse_error_condition_counterexample :
    (splitOnChar '/' "1/2/3".data).length = 3 ∧
    parseTimingData "1/2/3" = .ok [⟨1, 2, 0⟩] ∧
    parseTimingData "-1/2" = .ok [⟨-1, 2, 0⟩] := by
  refine ⟨by decide, by decide, by decide⟩

theorem entriesOfSegs_index (segs : List (List Char)) (i j : Nat)
    (hj : j < (entriesOfSegs i segs).length) :
    ((entriesOfSegs i segs).get ⟨j, hj⟩).index = i + j := by
  induction segs generalizing i j with
  | nil => exact absurd hj (by simp [entriesOfSegs])
  | cons seg rest ih =>
    cases j with
    | zero => rfl
    | succ j' =>
      have := ih (i + 1) j' (by simpa [entriesOfSegs] using hj)
      simpa [entriesOfSegs, List.get, Nat.add_assoc, Nat.add_comm 1 j'] using this

/-- C5 (amended): what a successful parse actually guarantees is the order
part of the invariant: every entry's `sequenceIndex` equals its position
in the ledger. The non-emptiness and positivity clauses do not hold — the
parser accepts an empty ledger, zero sizes and negative fields (see the
counterexample). -/
theorem C5_parse_result_invariant (content : String) (l : List TimingEntry)
    (h : parseTimingData content = .ok l) (j : Nat) (hj : j < l.length) :
    (l.get ⟨j, hj⟩).index = j := by
  cases parseSegsFrom_ok h
  simpa using entriesOfSegs_index (ledgerSegments content) 0 j hj

/-- Witness for C5 on `"0/320,40/320"`: the entry at position 1 carries
`sequenceIndex` 1. -/
theorem C5_parse_result_invariant_witness :
    (([⟨0, 320, 0⟩, ⟨40, 320, 1⟩] : List TimingEntry).get ⟨1, by decide⟩).index = 1 :=
  C5_parse_result_invariant "0/320,40/320" [⟨0, 320, 0⟩, ⟨40, 320, 1⟩]
    (by decide) 1 (by decide)

/-- Counterexample to C5 as stated: `"7/0"` parses successfully to a ledger
with `sizeBytes = 0`, and `""` parses successfully to an empty ledger; both
violate the stated invariant. -/
theorem C5_parse_result_invariant_counterexample :
    parseTimingData "7/0" = .ok [⟨7, 0, 0⟩] ∧
    ¬ ledgerInvariant [⟨7, 0, 0⟩] ∧
    parseTimingData "" = .ok [] ∧
    ¬ ledgerInvariant [] := by
  refine ⟨by decide, by decide, by decide, by decide⟩

/-! ## C9: the shared output directory is always restored -/

/-- C9: on every return path of `processFolderBatch` — output-directory
creation failure, discovery failure, empty discovery, or a full run with
any mix of per-item outcomes — the shared `PATHS.OUTPUT_DIR` ends equal to
its value from before the call. -/
theorem C9_outputDir_restored (env : FsEnv) (folderPath : String) (st : St) :
    ((processFolderBatch env folderPath st).2).paths.outputDir =
      st.paths.outputDir := by
  simp only [processFolderBatch]
  split
  · rfl
  · split
    · rfl
    · split
      · rfl
      · rfl

/-! ## C1: reconstruction tolerates ledger/payload mismatches -/

theorem headerBytes_length (n : Nat) : (headerBytes n).length = 44 := by
  rw [headerBytes_eq]
  rfl

theorem generateHeader_natCast (n : Nat) (h : n + 36 ≤ 4294967295) :
    generateHeader (.num (n : ℚ)) = .ok (headerBytes n) := by
  have hden : ((n : ℚ)).den = 1 := Rat.den_natCast n
  have hnum : ((n : ℚ)).num = (n : Int) := Rat.num_natCast n
  show (if ((n : ℚ)).den ≠ 1 ∨ ((n : ℚ)) < 0 then
      (Except.error HeaderErr.invalidLength : Except HeaderErr (List Nat))
    else if ((n : ℚ)).num.toNat + 36 > 4294967295 then
      Except.error HeaderErr.rangeError
    else Except.ok (headerBytes ((n : ℚ)).num.toNat)) = .ok (headerBytes n)
  rw [if_neg (by push_neg; exact ⟨hden, Nat.cast_nonneg n⟩)]
  simp only [hnum, Int.toNat_natCast]
  rw [if_neg (by omega)]

/-- C1 (amended): for every ledger that parses to at least one entry and
every readable non-empty payload within the size bound, reconstruction
succeeds whatever the ledger's byte total says: the mismatch surfaces only
as the non-fatal warning flag, and the written container is the 44-byte
header followed by the payload verbatim, so its length is the payload's
length plus 44. (The original claim quantified over *every* parseable
ledger; a ledger that parses to zero entries makes `processAudio` throw on
the null stats object — see the counterexample.) -/
theorem C1_reconstruct_tolerates_mismatch (env : FsEnv) (baseId : String)
    (paths : Paths) (tick : Nat) (ledgerText : String)
    (entries : List TimingEntry) (payload : List Nat)
    (hled : env.readText (paths.dataDir ++ "/" ++ baseId ++ "_timeSize") =
      .ok ledgerText)
    (hparse : parseTimingData ledgerText = .ok entries)
    (hne : entries ≠ [])
    (hstat : env.statSize (paths.dataDir ++ "/" ++ baseId ++ "_data") =
      some payload.length)
    (hread : env.readBytes (paths.dataDir ++ "/" ++ baseId ++ "_data") =
      .ok payload)
    (hnempty : payload ≠ [])
    (hmax : payload.length ≤ MAX_FILE_SIZE)
    (hdir : ensureDirectory env
      (pathDirname (paths.outputDir ++ "/" ++ baseId ++ ".wav")) = .ok ())
    (hwrite : env.writeOk (paths.outputDir ++ "/" ++ baseId ++ ".wav") =
      .ok ()) :
    ∃ out stats, (processAudio env baseId paths tick).1 = .ok out ∧
      getTimingStats entries = some stats ∧
      out.mismatchWarned = (stats.totalBytes != (payload.length : Int)) ∧
      out.wav.container = headerBytes payload.length ++ payload ∧
      out.wav.container.length = payload.length + 44 ∧
      out.wav.container.drop 44 = payload ∧
      out.audioLength = payload.length := by
  obtain ⟨e0, es, rfl⟩ : ∃ e0 es, entries = e0 :: es := by
    cases entries with
    | nil => exact absurd rfl hne
    | cons a b => exact ⟨a, b, rfl⟩
  have hsize0 : ¬ payload.length = 0 := by
    simpa using hnempty
  have hsizeMax : ¬ payload.length > MAX_FILE_SIZE := not_lt.mpr hmax
  have hhdr : generateHeader (.num (payload.length : ℚ)) =
      .ok (headerBytes payload.length) := by
    apply generateHeader_natCast
    have : MAX_FILE_SIZE = 52428800 := rfl
    omega
  have hread' : readAudioData env (paths.dataDir ++ "/" ++ baseId ++ "_data") =
      .ok payload := by
    unfold readAudioData
    rw [hstat]
    show (if payload.length = 0 then _ else _) = _
    rw [if_neg hsize0, if_neg hsizeMax, hread]
  have hwav : createWavFile env payload (paths.outputDir ++ "/" ++ baseId ++ ".wav") =
      .ok ⟨paths.outputDir ++ "/" ++ baseId ++ ".wav",
           (headerBytes payload.length ++ payload).length, payload.length,
           (headerBytes payload.length).length,
           headerBytes payload.length ++ payload⟩ := by
    unfold createWavFile
    rw [hhdr, hdir, hwrite]
  refine ⟨⟨baseId, paths.dataDir ++ "/" ++ baseId ++ "_data",
          paths.dataDir ++ "/" ++ baseId ++ "_timeSize",
          paths.outputDir ++ "/" ++ baseId ++ ".wav",
          ⟨(e0 :: es).length,
           es.foldl (fun a x => min a x.timestamp) e0.timestamp,
           es.foldl (fun a x => max a x.timestamp) e0.timestamp,
           (e0 :: es).foldl (fun a x => a + x.size) 0,
           es.foldl (fun a x => max a x.timestamp) e0.timestamp -
             es.foldl (fun a x => min a x.timestamp) e0.timestamp⟩,
          payload.length,
          ⟨paths.outputDir ++ "/" ++ baseId ++ ".wav",
           (headerBytes payload.length ++ payload).length, payload.length,
           (headerBytes payload.length).length,
           headerBytes payload.length ++ payload⟩,
          ((e0 :: es).foldl (fun a x => a + x.size) 0 != (payload.length : Int)),
          fmtSeconds (env.clock (tick + 1) - env.clock tick)⟩,
        ⟨(e0 :: es).length,
         es.foldl (fun a x => min a x.timestamp) e0.timestamp,
         es.foldl (fun a x => max a x.timestamp) e0.timestamp,
         (e0 :: es).foldl (fun a x => a + x.size) 0,
         es.foldl (fun a x => max a x.timestamp) e0.timestamp -
           es.foldl (fun a x => min a x.timestamp) e0.timestamp⟩,
        ?_, rfl, rfl, rfl, ?_, ?_, rfl⟩
  · simp only [processAudio, hled, hparse, getTimingStats, hread', hwav]
  · rw [List.length_append, headerBytes_length]
    omega
  · rw [← headerBytes_length payload.length]
    exact List.drop_left _ _

/-- Witness for C1: base id `a` under `c1Env`, whose ledger totals 800
bytes while the payload is `[1, 2, 3]` — reconstruction succeeds anyway,
flags the mismatch, and writes a 47-byte container ending in the payload. -/
theorem C1_reconstruct_tolerates_mismatch_witness :
    ∃ out stats, (processAudio c1Env "a" defaultPaths 0).1 = .ok out ∧
      getTimingStats [⟨0, 320, 0⟩, ⟨40, 320, 1⟩, ⟨80, 160, 2⟩] = some stats ∧
      out.mismatchWarned = (stats.totalBytes != ((3 : Nat) : Int)) ∧
      out.wav.container = headerBytes 3 ++ [1, 2, 3] ∧
      out.wav.container.length = 3 + 44 ∧
      out.wav.container.drop 44 = [1, 2, 3] ∧
      out.audioLength = 3 :=
  C1_reconstruct_tolerates_mismatch c1Env "a" defaultPaths 0
    "0/320,40/320,80/160" [⟨0, 320, 0⟩, ⟨40, 320, 1⟩, ⟨80, 160, 2⟩] [1, 2, 3]
    (by decide) (by decide) (by decide) (by decide) (by decide) (by decide)
    (by decide) (by decide) (by decide)

/-- Counterexample to C1 as stated: the ledger text `","` is parseable (it
parses to the empty ledger) and the 1-byte payload is readable, non-empty
and within bounds, yet `processAudio` fails — the progress log dereferences
the `null` stats object. -/
theorem C1_reconstruct_tolerates_mismatch_counterexample :
    parseTimingData "," = .ok [] ∧
    readAudioData c1BadEnv "./data/a_data" = .ok [0] ∧
    ([0] : List Nat) ≠ [] ∧
    (processAudio c1BadEnv "a" defaultPaths 0).1.isOk = false := by
  refine ⟨by decide, by decide, by decide, by decide⟩

/-! ## C7: best transcript selection -/

theorem collectAlts_eq (results : List (List Alt)) (b : String × ℚ) :
    collectAlts results b = (headAlts results, bestFold (headAlts results) b) := by
  induction results generalizing b with
  | nil => rfl
  | cons r rest ih =>
    cases r with
    | nil =>
      show collectAlts rest b = _
      rw [ih]
      rfl
    | cons alt tl =>
      show (let best' := if b.2 < alt.confidence then (alt.transcript, alt.confidence) else b
            let p := collectAlts rest best'
            (alt :: p.1, p.2)) = _
      simp only [ih]
      rfl

theorem bestFold_le (alts : List Alt) (b : String × ℚ)
    (h : ∀ a ∈ alts, a.confidence ≤ b.2) : bestFold alts b = b := by
  induction alts with
  | nil => rfl
  | cons a rest ih =>
    show bestFold rest _ = b
    rw [if_neg (not_lt.mpr (h a (List.mem_cons_self a rest)))]
    exact ih (fun x hx => h x (List.mem_cons_of_mem a hx))

theorem bestFold_firstmax (l1 l2 : List Alt) (a : Alt) (b : String × ℚ)
    (hmax1 : ∀ z ∈ l1, z.confidence < a.confidence)
    (hmax2 : ∀ z ∈ l2, z.confidence ≤ a.confidence)
    (hgt : b.2 < a.confidence) :
    bestFold (l1 ++ a :: l2) b = (a.transcript, a.confidence) := by
  induction l1 generalizing b with
  | nil =>
    show bestFold l2 _ = _
    rw [if_pos hgt]
    exact bestFold_le l2 _ hmax2
  | cons z l1' ih =>
    show bestFold (l1' ++ a :: l2) _ = _
    by_cases hz : b.2 < z.confidence
    · rw [if_pos hz]
      exact ih _ (fun x hx => hmax1 x (List.mem_cons_of_mem z hx))
        (hmax1 z (List.mem_cons_self z l1'))
    · rw [if_neg hz]
      exact ih _ (fun x hx => hmax1 x (List.mem_cons_of_mem z hx)) hgt

theorem find?_decomp {α : Type} {p : α → Bool} {l : List α} {a : α}
    (h : l.find? p = some a) :
    ∃ l1 l2, l = l1 ++ a :: l2 ∧ p a = true ∧ ∀ z ∈ l1, p z = false := by
  induction l with
  | nil => exact absurd h (by simp)
  | cons x xs ih =>
    by_cases hp : p x
    · rw [List.find?_cons_of_pos _ hp] at h
      cases h
      exact ⟨[], xs, rfl, hp, by simp⟩
    · rw [List.find?_cons_of_neg _ (by simpa using hp)] at h
      obtain ⟨l1, l2, rfl, hpa, hl1⟩ := ih h
      refine ⟨x :: l1, l2, rfl, hpa, ?_⟩
      intro z hz
      rcases List.mem_cons.mp hz with rfl | hz'
      · simpa using hp
      · exact hl1 z hz'

theorem firstArgmax_decomp {alts : List Alt} {a : Alt}
    (h : firstArgmax alts = some a) :
    (∀ z ∈ alts, z.confidence ≤ a.confidence) ∧
      ∃ l1 l2, alts = l1 ++ a :: l2 ∧ ∀ z ∈ l1, z.confidence < a.confidence := by
  obtain ⟨l1, l2, heq, hpa, hl1⟩ := find?_decomp h
  have hall : ∀ z ∈ alts, z.confidence ≤ a.confidence := by
    intro z hz
    exact of_decide_eq_true (List.all_eq_true.mp hpa z hz)
  refine ⟨hall, l1, l2, heq, ?_⟩
  intro z hz
  have hfz : (alts.all fun y => decide (y.confidence ≤ z.confidence)) = false :=
    hl1 z hz
  obtain ⟨y, hy, hyf⟩ := List.all_eq_false.mp hfz
  have hylt : z.confidence < y.confidence :=
    lt_of_not_le (fun hc => hyf (decide_eq_true hc))
  exact lt_of_lt_of_le hylt (hall y hy)

/-- C7 (amended): for every non-empty sequence of alternatives whose
highest confidence is positive, `bestTranscript`/`bestConfidence` are the
trimmed text and the confidence of the first alternative attaining that
maximum (ties keep the first). When every confidence is `≤ 0` — all are
exactly 0 for in-range data, which the response can produce — the loop's
strict-improvement test never fires and the result is the initial
`("", 0)`, not the first alternative (see the counterexample). -/
theorem C7_best_transcript (results : List (List Alt)) (a : Alt)
    (hfind : firstArgmax (headAlts results) = some a) :
    (0 < a.confidence →
      (processRecognitionResults results).bestTranscript = trimStr a.transcript ∧
      (processRecognitionResults results).bestConfidence = a.confidence) ∧
    (a.confidence ≤ 0 →
      (processRecognitionResults results).bestTranscript = "" ∧
      (processRecognitionResults results).bestConfidence = 0) := by
  obtain ⟨hall, l1, l2, heq, hl1⟩ := firstArgmax_decomp hfind
  have hbt : (processRecognitionResults results).bestTranscript =
      trimStr (bestFold (headAlts results) ("", 0)).1 := by
    simp only [processRecognitionResults, collectAlts_eq]
  have hbc : (processRecognitionResults results).bestConfidence =
      (bestFold (headAlts results) ("", 0)).2 := by
    simp only [processRecognitionResults, collectAlts_eq]
  constructor
  · intro hpos
    have hbf : bestFold (headAlts results) ("", 0) =
        (a.transcript, a.confidence) := by
      rw [heq]
      exact bestFold_firstmax l1 l2 a ("", 0) hl1
        (fun z hz => hall z (heq ▸ List.mem_append_right l1 (List.mem_cons_of_mem a hz)))
        hpos
    rw [hbt, hbc, hbf]
    exact ⟨rfl, rfl⟩
  · intro hneg
    have hbf : bestFold (headAlts results) ("", 0) = ("", 0) :=
      bestFold_le _ _ (fun z hz => le_trans (hall z hz) hneg)
    rw [hbt, hbc, hbf]
    exact ⟨rfl, rfl⟩

/-- Witness for C7 on two alternatives of confidence 1 and 1/2: the first
maximum wins. -/
theorem C7_best_transcript_witness :
    (processRecognitionResults [[⟨"a", 1, 0⟩], [⟨"b", ⟨1, 2, by decide, by decide⟩, 0⟩]]).bestTranscript =
      trimStr "a" ∧
    (processRecognitionResults [[⟨"a", 1, 0⟩], [⟨"b", ⟨1, 2, by decide, by decide⟩, 0⟩]]).bestConfidence = 1 :=
  (C7_best_transcript [[⟨"a", 1, 0⟩], [⟨"b", ⟨1, 2, by decide, by decide⟩, 0⟩]]
    ⟨"a", 1, 0⟩ (by decide)).1 (by decide)

/-- Counterexample to C7 as stated: a single alternative `("hello", 0)` is
the (unique) highest-confidence alternative, yet the derived best
transcript is the initial `""`, not `"hello"`. -/
theorem C7_best_transcript_counterexample :
    firstArgmax (headAlts [[⟨"hello", 0, 0⟩]]) = some ⟨"hello", 0, 0⟩ ∧
    (processRecognitionResults [[⟨"hello", 0, 0⟩]]).bestTranscript = "" ∧
    (processRecognitionResults [[⟨"hello", 0, 0⟩]]).bestConfidence = 0 ∧
    trimStr "hello" = "hello" ∧ ("" : String) ≠ "hello" := by
  refine ⟨by decide, by decide, by decide, by decide, by decide⟩

/-! ## C8: CSV escaping and row shape -/

theorem str_data_append (a b : String) : (a ++ b).data = a.data ++ b.data := rfl

theorem escapeChars_cons (c : Char) (rest : List Char) :
    escapeChars (c :: rest) =
      if c = '"' then '"' :: '"' :: escapeChars rest
      else c :: escapeChars rest := rfl

theorem readQuotedAux_cons2 (a b : Char) (rest : List Char) :
    readQuotedAux (a :: b :: rest) =
      if a = '"' then
        if b = '"' then (readQuotedAux rest).map (fun p => ('"' :: p.1, p.2))
        else some ([], b :: rest)
      else (readQuotedAux (b :: rest)).map (fun p => (a :: p.1, p.2)) := rfl

theorem readQuotedAux_escape (s r0 : List Char) (h : r0.head? ≠ some '"') :
    readQuotedAux (escapeChars s ++ '"' :: r0) = some (s, r0) := by
  induction s with
  | nil =>
    show readQuotedAux ('"' :: r0) = some ([], r0)
    cases r0 with
    | nil => rfl
    | cons b rest =>
      have hb : b ≠ '"' := fun hb => h (by rw [hb]; rfl)
      rw [readQuotedAux_cons2, if_pos rfl, if_neg hb]
  | cons c s' ih =>
    rw [escapeChars_cons]
    by_cases hc : c = '"'
    · rw [if_pos hc, List.cons_append, List.cons_append, readQuotedAux_cons2,
          if_pos rfl, if_pos rfl, ih]
      subst hc
      rfl
    · rw [if_neg hc, List.cons_append]
      cases hE : escapeChars s' ++ '"' :: r0 with
      | nil => exact absurd hE (by simp)
      | cons b rest' =>
        rw [readQuotedAux_cons2, if_neg hc, ← hE, ih]
        rfl

theorem readQuotedField_escape (s tail : String)
    (htail : tail.data.head? ≠ some '"') :
    readQuotedField (("\x22" ++ csvEscape s ++ "\x22" ++ tail).data) =
      some (s.data, tail.data) := by
  have hd : ("\x22" ++ csvEscape s ++ "\x22" ++ tail).data =
      '"' :: (escapeChars s.data ++ '"' :: tail.data) := by
    simp [str_data_append, csvEscape, List.append_assoc]
  rw [hd]
  show readQuotedAux (escapeChars s.data ++ '"' :: tail.data) = _
  exact readQuotedAux_escape _ _ htail

theorem joinWith_cons2 (sep x y : String) (rest : List String) :
    joinWith sep (x :: y :: rest) = x ++ sep ++ joinWith sep (y :: rest) := rfl

/-- C8 (amended): the free-text fields are the protected ones — the
transcript and error fields are quoted with embedded quotes doubled, so a
transcript containing `"` round-trips unchanged through a compliant CSV
field reader; unsuccessful rows leave the transcript, confidence,
detection-flag and path fields empty and put the message in the error
field. The claim's "every field is quoted" clause is false: the
confidence, detection-flag and success-flag fields are emitted bare (see
the counterexample). -/
theorem C8_csv_row_shape (r : ItemResult) :
    (r.success = true →
      ∃ rest, csvRow r =
          "\x22" ++ r.baseId ++ "\x22" ++ "," ++
            ("\x22" ++ csvEscape r.amTranscript ++ "\x22" ++ ("," ++ rest)) ∧
        readQuotedField
            (("\x22" ++ csvEscape r.amTranscript ++ "\x22" ++ ("," ++ rest)).data) =
          some (r.amTranscript.data, ("," ++ rest).data)) ∧
    (r.success = false →
      csvRow r = joinWith ","
        ["\x22" ++ r.baseId ++ "\x22", "\x22\x22", "", "", "", "",
         "\x22" ++ r.processingTime ++ "\x22", "FALSE",
         "\x22" ++ csvEscape r.error ++ "\x22"]) := by
  constructor
  · intro hs
    refine ⟨joinWith ","
      [toFixed3 r.amConfidence, if r.amDetected then "TRUE" else "FALSE",
       "\x22" ++ r.wavFile ++ "\x22", "\x22" ++ r.txtFile ++ "\x22",
       "\x22" ++ r.processingTime ++ "\x22", "TRUE", ""], ?_, ?_⟩
    · show joinWith "," _ = _
      simp only [hs, if_true]
      rw [joinWith_cons2, joinWith_cons2]
      rw [String.append_assoc ("\x22" ++ csvEscape r.amTranscript ++ "\x22") ","]
    · apply readQuotedField_escape
      intro hcon
      have : ("," ++ joinWith ","
          [toFixed3 r.amConfidence, if r.amDetected then "TRUE" else "FALSE",
           "\x22" ++ r.wavFile ++ "\x22", "\x22" ++ r.txtFile ++ "\x22",
           "\x22" ++ r.processingTime ++ "\x22", "TRUE", ""]).data.head? =
          some ',' := rfl
      rw [this] at hcon
      exact absurd (Option.some.inj hcon) (by decide)
  · intro hf
    show joinWith "," _ = _
    simp [hf]

/-- Witness for C8: a successful row whose transcript contains a literal
quote round-trips it, and a failed row leaves the transcript, confidence,
detection and path columns empty while carrying the error. -/
theorem C8_csv_row_shape_witness :
    (∃ rest, csvRow ⟨"i", true, "0.10s", "w", "t", true, "he\x22llo", 1, ""⟩ =
        "\x22" ++ "i" ++ "\x22" ++ "," ++
          ("\x22" ++ csvEscape "he\x22llo" ++ "\x22" ++ ("," ++ rest)) ∧
      readQuotedField
          (("\x22" ++ csvEscape "he\x22llo" ++ "\x22" ++ ("," ++ rest)).data) =
        some (("he\x22llo" : String).data, ("," ++ rest).data)) ∧
    csvRow ⟨"j", false, "0.20s", "", "", false, "", 0, "boom"⟩ = joinWith ","
      ["\x22" ++ "j" ++ "\x22", "\x22\x22", "", "", "", "",
       "\x22" ++ "0.20s" ++ "\x22", "FALSE", "\x22" ++ csvEscape "boom" ++ "\x22"] :=
  ⟨(C8_csv_row_shape ⟨"i", true, "0.10s", "w", "t", true, "he\x22llo", 1, ""⟩).1 rfl,
   (C8_csv_row_shape ⟨"j", false, "0.20s", "", "", false, "", 0, "boom"⟩).2 rfl⟩

/-- Counterexample to C8 as stated: in a successful row with confidence
`1/2`, the third field is the bare `0.500` and the eighth the bare `TRUE`
— not quoted. -/
theorem C8_csv_row_shape_counterexample :
    (splitOnChar ','
        (csvRow ⟨"i", true, "0.10s", "w", "t", true, "x",
          ⟨1, 2, by decide, by decide⟩, ""⟩).data).get? 2 =
      some ("0.500" : String).data ∧
    isQuotedField "0.500" = false ∧
    (splitOnChar ','
        (csvRow ⟨"i", true, "0.10s", "w", "t", true, "x",
          ⟨1, 2, by decide, by decide⟩, ""⟩).data).get? 7 =
      some ("TRUE" : String).data ∧
    isQuotedField "TRUE" = false := by
  refine ⟨by decide, by decide, by decide, by decide⟩

/-! ## C3: per-item failure isolation in the batch -/

theorem processAudio_isOk_tick (env : FsEnv) (b : String) (p : Paths) (t : Nat) :
    (processAudio env b p t).1.isOk = (processAudio env b p 0).1.isOk := by
  simp only [processAudio]
  cases env.readText (p.dataDir ++ "/" ++ b ++ "_timeSize") with
  | error e => rfl
  | ok content =>
    dsimp only
    cases parseTimingData content with
    | error e => rfl
    | ok entries =>
      dsimp only
      cases getTimingStats entries with
      | none => rfl
      | some stats =>
        dsimp only
        cases readAudioData env (p.dataDir ++ "/" ++ b ++ "_data") with
        | error e => rfl
        | ok payload =>
          dsimp only
          cases createWavFile env payload (p.outputDir ++ "/" ++ b ++ ".wav") with
          | error e => rfl
          | ok wavInfo => rfl

theorem processSpeech_isOk_tick (env : FsEnv) (b : String) (p : Paths) (t : Nat) :
    (processSpeech env b p t).1.isOk = (processSpeech env b p 0).1.isOk := by
  simp only [processSpeech]
  cases env.access (p.outputDir ++ "/" ++ b ++ ".wav") with
  | false => rfl
  | true =>
    dsimp only
    cases env.readBytes (p.outputDir ++ "/" ++ b ++ ".wav") with
    | error e => rfl
    | ok bytes =>
      dsimp only
      cases env.speech b p.outputDir with
      | error e => rfl
      | ok tr =>
        dsimp only
        cases env.writeOk (p.outputDir ++ "/" ++ b ++ ".txt") with
        | error e => rfl
        | ok u => rfl

theorem processAudio_error_shape (env : FsEnv) (b : String) (p : Paths)
    (t : Nat) (e : String) (h : (processAudio env b p t).1 = .error e) :
    ∃ s, e = "Audio processing failed for " ++ b ++ ": " ++ s := by
  revert h
  simp only [processAudio]
  cases env.readText (p.dataDir ++ "/" ++ b ++ "_timeSize") with
  | error e0 =>
    intro h
    exact ⟨e0, (Except.error.inj h).symm⟩
  | ok content =>
    dsimp only
    cases parseTimingData content with
    | error e0 =>
      intro h
      exact ⟨e0, (Except.error.inj h).symm⟩
    | ok entries =>
      dsimp only
      cases getTimingStats entries with
      | none =>
        intro h
        exact ⟨_, (Except.error.inj h).symm⟩
      | some stats =>
        dsimp only
        cases readAudioData env (p.dataDir ++ "/" ++ b ++ "_data") with
        | error e0 =>
          intro h
          exact ⟨e0, (Except.error.inj h).symm⟩
        | ok payload =>
          dsimp only
          cases createWavFile env payload (p.outputDir ++ "/" ++ b ++ ".wav") with
          | error e0 =>
            intro h
            exact ⟨e0, (Except.error.inj h).symm⟩
          | ok wavInfo =>
            intro h
            exact absurd h (by simp)

theorem processSpeech_error_shape (env : FsEnv) (b : String) (p : Paths)
    (t : Nat) (e : String) (h : (processSpeech env b p t).1 = .error e) :
    ∃ s, e = "Speech processing failed for " ++ b ++ ": " ++ s := by
  revert h
  simp only [processSpeech]
  cases env.access (p.outputDir ++ "/" ++ b ++ ".wav") with
  | false =>
    intro h
    exact ⟨_, (Except.error.inj h).symm⟩
  | true =>
    dsimp only
    cases env.readBytes (p.outputDir ++ "/" ++ b ++ ".wav") with
    | error e0 =>
      intro h
      exact ⟨_, (Except.error.inj h).symm⟩
    | ok bytes =>
      dsimp only
      cases env.speech b p.outputDir with
      | error e0 =>
        intro h
        exact ⟨_, (Except.error.inj h).symm⟩
      | ok tr =>
        dsimp only
        cases env.writeOk (p.outputDir ++ "/" ++ b ++ ".txt") with
        | error e0 =>
          intro h
          exact ⟨_, (Except.error.inj h).symm⟩
        | ok u =>
          intro h
          exact absurd h (by simp)

theorem append_ne_empty_left (a b : String) (ha : a ≠ "") : a ++ b ≠ "" := by
  intro h
  apply ha
  have hd : a.data ++ b.data = [] := congrArg String.data h
  exact String.ext (List.append_eq_nil.mp hd).1

theorem workflow_success (env : FsEnv) (id folder : String) (st : St) :
    (processCompleteWorkflow env id (some folder) st).1.success =
      pipelineOk env id ⟨folder, st.paths.outputDir⟩ := by
  simp only [processCompleteWorkflow, pipelineOk]
  have hA := processAudio_isOk_tick env id ⟨folder, st.paths.outputDir⟩ (st.tick + 1)
  cases hpa : processAudio env id ⟨folder, st.paths.outputDir⟩ (st.tick + 1) with
  | mk fst tick2 =>
    rw [hpa] at hA
    cases fst with
    | error e =>
      dsimp only
      rw [← hA]
      rfl
    | ok wav =>
      dsimp only
      have hS := processSpeech_isOk_tick env id ⟨folder, st.paths.outputDir⟩ tick2
      cases hps : processSpeech env id ⟨folder, st.paths.outputDir⟩ tick2 with
      | mk sfst tick3 =>
        rw [hps] at hS
        cases sfst with
        | error e =>
          dsimp only
          rw [← hA, ← hS]
          rfl
        | ok tr =>
          dsimp only
          rw [← hA, ← hS]
          rfl

theorem workflow_outputDir (env : FsEnv) (id folder : String) (st : St) :
    ((processCompleteWorkflow env id (some folder) st).2).paths.outputDir =
      st.paths.outputDir := by
  simp only [processCompleteWorkflow]
  cases processAudio env id ⟨folder, st.paths.outputDir⟩ (st.tick + 1) with
  | mk fst tick2 =>
    cases fst with
    | error e => rfl
    | ok wav =>
      dsimp only
      cases processSpeech env id ⟨folder, st.paths.outputDir⟩ tick2 with
      | mk sfst tick3 =>
        cases sfst with
        | error e => rfl
        | ok tr => rfl

theorem workflow_time (env : FsEnv) (id folder : String) (st : St) :
    ∃ d, (processCompleteWorkflow env id (some folder) st).1.processingTime =
      fmtSeconds d := by
  simp only [processCompleteWorkflow]
  cases processAudio env id ⟨folder, st.paths.outputDir⟩ (st.tick + 1) with
  | mk fst tick2 =>
    cases fst with
    | error e => exact ⟨_, rfl⟩
    | ok wav =>
      dsimp only
      cases processSpeech env id ⟨folder, st.paths.outputDir⟩ tick2 with
      | mk sfst tick3 =>
        cases sfst with
        | error e => exact ⟨_, rfl⟩
        | ok tr => exact ⟨_, rfl⟩

theorem workflow_error_nonempty (env : FsEnv) (id folder : String) (st : St) :
    (processCompleteWorkflow env id (some folder) st).1.success = false →
    (processCompleteWorkflow env id (some folder) st).1.error ≠ "" := by
  simp only [processCompleteWorkflow]
  cases hpa : processAudio env id ⟨folder, st.paths.outputDir⟩ (st.tick + 1) with
  | mk fst tick2 =>
    cases fst with
    | error e =>
      dsimp only
      intro _
      obtain ⟨s, rfl⟩ :=
        processAudio_error_shape env id ⟨folder, st.paths.outputDir⟩
          (st.tick + 1) e (by rw [hpa])
      exact append_ne_empty_left _ _
        (append_ne_empty_left _ _ (append_ne_empty_left _ _ (by decide)))
    | ok wav =>
      dsimp only
      cases hps : processSpeech env id ⟨folder, st.paths.outputDir⟩ tick2 with
      | mk sfst tick3 =>
        cases sfst with
        | error e =>
          dsimp only
          intro _
          obtain ⟨s, rfl⟩ :=
            processSpeech_error_shape env id ⟨folder, st.paths.outputDir⟩
              tick2 e (by rw [hps])
          exact append_ne_empty_left _ _
            (append_ne_empty_left _ _ (append_ne_empty_left _ _ (by decide)))
        | ok tr =>
          dsimp only
          intro hcon
          exact absurd hcon (by simp)

theorem batchLoop_spec (env : FsEnv) (folder : String) (ids : List String)
    (st : St) :
    ((batchLoop env folder ids st).1.length = ids.length) ∧
    ((batchLoop env folder ids st).2.paths.outputDir = st.paths.outputDir) ∧
    (List.countP (fun r => r.success) (batchLoop env folder ids st).1 =
      List.countP (fun id => pipelineOk env id ⟨folder, st.paths.outputDir⟩) ids) ∧
    (∀ r ∈ (batchLoop env folder ids st).1,
      (∃ d, r.processingTime = fmtSeconds d) ∧
      (r.success = false → r.error ≠ "")) := by
  induction ids generalizing st with
  | nil =>
    refine ⟨rfl, rfl, rfl, ?_⟩
    intro r hr
    exact absurd hr (List.not_mem_nil r)
  | cons id rest ih =>
    obtain ⟨ihlen, ihout, ihcount, ihall⟩ :=
      ih ((processCompleteWorkflow env id (some folder) st).2)
    have hodir := workflow_outputDir env id folder st
    have hsucc := workflow_success env id folder st
    have htime := workflow_time env id folder st
    have herr := workflow_error_nonempty env id folder st
    have hstep : batchLoop env folder (id :: rest) st =
        ((processCompleteWorkflow env id (some folder) st).1 ::
          (batchLoop env folder rest
            (processCompleteWorkflow env id (some folder) st).2).1,
         (batchLoop env folder rest
            (processCompleteWorkflow env id (some folder) st).2).2) := rfl
    rw [hstep]
    cases hw : processCompleteWorkflow env id (some folder) st with
    | mk r st1 =>
      rw [hw] at ihlen ihout ihcount ihall hodir hsucc htime herr
      cases hbl : batchLoop env folder rest st1 with
      | mk rs st2 =>
        rw [hbl] at ihlen ihout ihcount ihall
        dsimp only at ihlen ihout ihcount ihall hodir hsucc htime herr ⊢
        refine ⟨?_, ?_, ?_, ?_⟩
        · rw [List.length_cons, ihlen]
          rfl
        · rw [ihout, hodir]
        · rw [List.countP_cons, List.countP_cons, ihcount, hodir, hsucc]
        · intro x hx
          rcases List.mem_cons.mp hx with rfl | hx'
          · exact ⟨htime, herr⟩
          · exact ihall x hx'

theorem countP_bool_split {α : Type} (p : α → Bool) (l : List α) :
    List.countP (fun a => !(p a)) l + List.countP (fun a => p a) l = l.length := by
  induction l with
  | nil => rfl
  | cons a t ih =>
    rw [List.countP_cons, List.countP_cons]
    cases ha : p a <;> simp [ha] <;> omega

/-- C3: per-item failure isolation. Whenever discovery yields a non-empty
id list in which exactly one id's pipeline fails (at any stage) and every
other id's pipeline succeeds, the batch completes successfully — nothing
propagates out of the per-item runs — with `successCount = N` and
`failureCount = 1`; every item result (including the failed one) records a
wall-clock duration, and the failed one carries a non-empty error
message. -/
theorem C3_batch_failure_isolation (env : FsEnv) (folderPath : String)
    (st : St) (ids : List String) (bad : String)
    (hdisc : discoverAudioFiles env folderPath = .ok ids)
    (hne : ids ≠ [])
    (hmkdir : env.mkdirOk (pathJoin st.paths.outputDir (pathBasename folderPath)) =
      .ok ())
    (hcount : ids.count bad = 1)
    (hok : ∀ id ∈ ids, id ≠ bad →
      pipelineOk env id
        ⟨folderPath, pathJoin st.paths.outputDir (pathBasename folderPath)⟩ = true)
    (hbad : pipelineOk env bad
      ⟨folderPath, pathJoin st.paths.outputDir (pathBasename folderPath)⟩ = false) :
    ((processFolderBatch env folderPath st).1.success = true) ∧
    ((processFolderBatch env folderPath st).1.successCount = ids.length - 1) ∧
    ((processFolderBatch env folderPath st).1.failureCount = 1) ∧
    ((processFolderBatch env folderPath st).1.results.length = ids.length) ∧
    (∀ r ∈ (processFolderBatch env folderPath st).1.results,
      (∃ d, r.processingTime = fmtSeconds d) ∧
      (r.success = false → r.error ≠ "")) := by
  have hempty : ids.isEmpty = false := List.isEmpty_eq_false.mpr hne
  obtain ⟨results, st2, hbl⟩ : ∃ r s, batchLoop env folderPath ids
      ⟨⟨st.paths.dataDir, pathJoin st.paths.outputDir (pathBasename folderPath)⟩,
       st.tick + 1⟩ = (r, s) := ⟨_, _, rfl⟩
  have hred : (processFolderBatch env folderPath st).1 =
      { folderPath := folderPath, folderName := pathBasename folderPath,
        success := true,
        processingTime := fmtSeconds (env.clock st2.tick - env.clock st.tick),
        totalFiles := ids.length,
        successCount := results.countP (fun r => r.success),
        failureCount := results.countP (fun r => !r.success),
        answeringMachineCount := results.countP (fun r => r.success && r.amDetected),
        successRate := ((results.countP (fun r => r.success) : ℚ)) / ((ids.length : ℚ)),
        detectionRate :=
          if 0 < results.countP (fun r => r.success) then
            ((results.countP (fun r => r.success && r.amDetected) : ℚ)) /
              ((results.countP (fun r => r.success) : ℚ))
          else 0,
        results := results } := by
    simp only [processFolderBatch]
    rw [hmkdir]
    dsimp only
    rw [hdisc]
    dsimp only
    rw [if_neg (by simp [hempty]), hbl]
  obtain ⟨hlen, hout, hcountP, hall⟩ := batchLoop_spec env folderPath ids
    ⟨⟨st.paths.dataDir, pathJoin st.paths.outputDir (pathBasename folderPath)⟩,
     st.tick + 1⟩
  rw [hbl] at hlen hout hcountP hall
  dsimp only at hlen hout hcountP hall
  have hpc : List.countP
      (fun id => pipelineOk env id
        ⟨folderPath, pathJoin st.paths.outputDir (pathBasename folderPath)⟩) ids =
      List.countP (fun id => !(id == bad)) ids := by
    apply List.countP_congr
    intro x hx
    constructor
    · intro hpx
      by_contra hcon
      have hxbad : x = bad := by
        simpa using hcon
      rw [hxbad] at hpx
      rw [hpx] at hbad
      exact absurd hbad (by simp)
    · intro hnx
      have hxne : x ≠ bad := by
        simpa using hnx
      exact hok x hx hxne
  have hcnt1 : List.countP (fun x => x == bad) ids = 1 := by
    rw [← List.count_eq_countP]
    exact hcount
  have hsplit := countP_bool_split (fun id => id == bad) ids
  have hlenpos : 0 < ids.length := List.length_pos.mpr hne
  have hSC : results.countP (fun r => r.success) = ids.length - 1 := by
    rw [hcountP, hpc]
    omega
  have hFsplit := countP_bool_split (fun r : ItemResult => r.success) results
  refine ⟨?_, ?_, ?_, ?_, ?_⟩
  · rw [hred]
  · rw [hred]
    exact hSC
  · rw [hred]
    show results.countP (fun r => !r.success) = 1
    omega
  · rw [hred]
    exact hlen
  · rw [hred]
    exact hall

/-- Witness for C3: the folder `d` of `c3Env` holds two valid pairs and
one with a malformed ledger (`c`); the batch completes with
`successCount = 2`, `failureCount = 1`, three results, and durations
recorded for all of them. -/
theorem C3_batch_failure_isolation_witness :
    ((processFolderBatch c3Env "d" ⟨defaultPaths, 0⟩).1.success = true) ∧
    ((processFolderBatch c3Env "d" ⟨defaultPaths, 0⟩).1.successCount = 2) ∧
    ((processFolderBatch c3Env "d" ⟨defaultPaths, 0⟩).1.failureCount = 1) ∧
    ((processFolderBatch c3Env "d" ⟨defaultPaths, 0⟩).1.results.length = 3) ∧
    (∀ r ∈ (processFolderBatch c3Env "d" ⟨defaultPaths, 0⟩).1.results,
      (∃ d, r.processingTime = fmtSeconds d) ∧
      (r.success = false → r.error ≠ "")) :=
  C3_batch_failure_isolation c3Env "d" ⟨defaultPaths, 0⟩ ["a", "b", "c"] "c"
    (by decide) (by decide) (by decide) (by decide) (by decide) (by decide)

end APD
